import Mathlib

/-!
Verification development for the `WebsiteChatbot` retrieval-and-response core
(`chatbot.py`).  The Python class is shallowly embedded: its pure text
processing becomes Lean functions on `String`/`List Char`, the mutable bot
object becomes an explicit `Bot` record threaded through the operations, and
floating-point similarity scores are modelled by an ordered scalar type
(`ℚ` or `ℝ`).  External libraries (requests/BeautifulSoup fetching, the
sklearn `TfidfVectorizer`, Python's `html` module and `re` engine) are not
repository code; where their behaviour matters it is modelled from the spec
and documented on the definition.
-/

namespace Chatbot

/-! ### Basic character/string helpers (Python string primitives) -/

/-- Python whitespace test (`\s`, `str.strip`, `str.split`): modelled by
Unicode whitespace on `Char`. -/
def isWs (c : Char) : Bool := c.isWhitespace

/-- Python `str.lower`, modelled by ASCII `Char.toLower` (the corpus and the
keyword tables are ASCII). -/
def lowerL (l : List Char) : List Char := l.map Char.toLower

/-- Python `str.lower` on strings. -/
def lowerStr (s : String) : String := String.mk (lowerL s.data)

/-- Boolean list-prefix test. -/
def isPrefixL : List Char → List Char → Bool
  | [], _ => true
  | _ :: _, [] => false
  | p :: ps, c :: cs => p = c && isPrefixL ps cs

/-- Boolean list-substring test (Python's `in` on strings). -/
def isInfixL : List Char → List Char → Bool
  | p, [] => p.isEmpty
  | p, c :: rest => isPrefixL p (c :: rest) || isInfixL p rest

/-- Python `pat in s` substring containment. -/
def containsSub (pat s : String) : Bool := isInfixL pat.data s.data

/-- Python `s.startswith(pat)`. -/
def startsWithStr (s pat : String) : Bool := isPrefixL pat.data s.data

/-- Python `str.strip()`: drop leading and trailing whitespace. -/
def trimL (l : List Char) : List Char :=
  ((l.dropWhile isWs).reverse.dropWhile isWs).reverse

/-- Python `str.strip()` on strings. -/
def trimStr (s : String) : String := String.mk (trimL s.data)

/-- `re.sub(r'\s+', ' ', text)`: collapse each whitespace run to one space.
The flag records whether the previous character was whitespace (in which
case further whitespace is absorbed). -/
def collapseWsAux : List Char → Bool → List Char
  | [], _ => []
  | c :: rest, lastWs =>
    if isWs c then
      if lastWs then collapseWsAux rest true else ' ' :: collapseWsAux rest true
    else c :: collapseWsAux rest false

/-- `re.sub(r'\s+', ' ', text)`. -/
def collapseWsL (l : List Char) : List Char := collapseWsAux l false

/-- Word counter for Python `len(text.split())`: counts maximal
non-whitespace runs.  The flag records whether we are inside a word. -/
def countWordsAux : List Char → Bool → Nat
  | [], _ => 0
  | c :: rest, inWord =>
    if isWs c then countWordsAux rest false
    else (if inWord then 0 else 1) + countWordsAux rest true

/-- `len(text.split())`: number of whitespace-separated words. -/
def wordCount (s : String) : Nat := countWordsAux s.data false

/-- Count of characters passing Python `str.isalnum` (modelled by ASCII
`Char.isAlphanum`; the corpus text is ASCII). -/
def alnumCount (l : List Char) : Nat := (l.filter Char.isAlphanum).length

/-- Python's `' '.join(parts)`. -/
def joinSp : List String → String
  | [] => ""
  | [x] => x
  | x :: y :: rest => x ++ " " ++ joinSp (y :: rest)

/-! ### `clean_text` -/

/-- Modelled from the spec: Python's `html.unescape` (the Text Normalizer's
entity decoding), restricted to the five basic named/numeric entities; it is
the identity on ampersand-free text, which covers every input used in this
development. -/
def unescapeHtml : List Char → List Char
  | [] => []
  | '&' :: 'a' :: 'm' :: 'p' :: ';' :: rest => '&' :: unescapeHtml rest
  | '&' :: 'l' :: 't' :: ';' :: rest => '<' :: unescapeHtml rest
  | '&' :: 'g' :: 't' :: ';' :: rest => '>' :: unescapeHtml rest
  | '&' :: 'q' :: 'u' :: 'o' :: 't' :: ';' :: rest => '"' :: unescapeHtml rest
  | '&' :: '#' :: '3' :: '9' :: ';' :: rest => '\'' :: unescapeHtml rest
  | c :: rest => c :: unescapeHtml rest

/-- Python `\w` (with `re.UNICODE`, modelled on ASCII): letter, digit or
underscore. -/
def pyWordCh (c : Char) : Bool := c.isAlpha || c.isDigit || c = '_'

/-- Characters kept by `re.sub(r'[^\w\s.,!?\-:;()\'"@]', '', text)`. -/
def keepCh (c : Char) : Bool :=
  pyWordCh c || isWs c ||
    (c = '.' || c = ',' || c = '!' || c = '?' || c = '-' || c = ':' ||
     c = ';' || c = '(' || c = ')' || c = '\'' || c = '"' || c = '@')

/-- The three quote replacements `text.replace('"', "'")…`: each replaces a
single character, so they amount to one character map. -/
def replaceQuotes (l : List Char) : List Char :=
  l.map (fun c => if c = '"' || c = '“' || c = '”' then '\'' else c)

/-- `WebsiteChatbot.clean_text`: unescape entities, collapse whitespace,
drop special characters, normalize quotes, strip. -/
def clean_text (s : String) : String :=
  if s = "" then ""
  else String.mk (trimL (replaceQuotes ((collapseWsL (unescapeHtml s.data)).filter keepCh)))

/-! ### `is_meaningful_content` -/

/-- The fixed boilerplate list excluded by `is_meaningful_content`. -/
def excludedPhrases : List String :=
  ["privacy policy", "terms of service", "copyright", "all rights reserved",
   "cookie policy", "sitemap", "home", "menu", "navigation", "skip to content",
   "follow us", "share this", "related posts", "popular tags", "recent comments",
   "get in touch", "click here", "learn more", "read more", "subscribe now",
   "sign up", "back to top", "login", "register", "search", "filter by",
   "load more", "view all", "next page", "previous page"]

/-- `WebsiteChatbot.is_meaningful_content`.  The float test
`alnum_count / len(text) < 0.5` is modelled exactly by `2*alnum < len`. -/
def is_meaningful_content (s : String) : Bool :=
  if s = "" || s.length < 25 then false
  else
    let lower := lowerStr s
    if excludedPhrases.any (fun p => containsSub p lower) then false
    else if wordCount s < 3 then false
    else if 2 * alnumCount s.data < s.length then false
    else true

/-! ### `split_chunks` -/

/-- Does the (reversed) sentence accumulator end in terminal punctuation? -/
def punctHead : List Char → Bool
  | a :: _ => a = '.' || a = '!' || a = '?'
  | [] => false

/-- `re.split(r'(?<=[.!?])\s+', text)`: cut after terminal punctuation that
is followed by whitespace, consuming the whitespace run.  `acc` holds the
current sentence reversed; the flag is true while consuming the whitespace
run of a delimiter. -/
def splitSentAux : List Char → List Char → Bool → List String
  | [], acc, _ => [String.mk acc.reverse]
  | c :: rest, acc, true =>
    if isWs c then splitSentAux rest acc true
    else splitSentAux rest [c] false
  | c :: rest, acc, false =>
    if isWs c && punctHead acc then
      String.mk acc.reverse :: splitSentAux rest [] true
    else splitSentAux rest (c :: acc) false

/-- Sentence splitting of `split_chunks`. -/
def split_sentences (s : String) : List String := splitSentAux s.data [] false

/-- Close out the accumulated candidate chunk: kept iff it is nonempty, its
running word count meets `min_len`, and it is meaningful. -/
def closeChunk (min_len : Nat) (current : List String) (curLen : Nat) : List String :=
  if !current.isEmpty && decide (min_len ≤ curLen) then
    let t := joinSp current
    if is_meaningful_content t then [t] else []
  else []

/-- The sentence-accumulation loop of `split_chunks`: greedily accumulate up
to 3 sentences while the running word count stays within `max_len`; close
out otherwise and start a fresh candidate from the current sentence. -/
def chunkLoop (min_len max_len : Nat) :
    List String → List String → Nat → List String
  | [], current, curLen => closeChunk min_len current curLen
  | s :: rest, current, curLen =>
    let cs := clean_text s
    if cs = "" || cs.length < 10 then chunkLoop min_len max_len rest current curLen
    else
      let sl := wordCount cs
      if curLen + sl ≤ max_len && decide (current.length < 3) then
        chunkLoop min_len max_len rest (current ++ [cs]) (curLen + sl)
      else
        closeChunk min_len current curLen ++ chunkLoop min_len max_len rest [cs] sl

/-- `WebsiteChatbot.split_chunks` (the produced chunk texts; the
`content_map` provenance write is modelled in `load_data`). -/
def split_chunks (text : String) (source_url : String := "")
    (min_len : Nat := 40) (max_len : Nat := 200) : List String :=
  if text = "" then []
  else chunkLoop min_len max_len (split_sentences text) [] 0

/-! ### Corpus deduplication (`load_data`, lines 327-338) -/

/-- `re.sub(r'\s+', ' ', chunk).strip().lower()`: the normalization key used
for deduplication. -/
def normalizeChunk (c : String) : String :=
  lowerStr (trimStr (String.mk (collapseWsL c.data)))

/-- The dedup loop of `load_data`: keep a chunk iff its normalized form is
unseen and `len(chunk) > 30`; only kept chunks record their key as seen. -/
def uniqueChunksAux : List String → List String → List String
  | [], _ => []
  | c :: rest, seen =>
    if !(seen.contains (normalizeChunk c)) && decide (30 < c.length) then
      c :: uniqueChunksAux rest (normalizeChunk c :: seen)
    else uniqueChunksAux rest seen

/-- Deduplicate collected chunks, preserving order. -/
def uniqueChunks (l : List String) : List String := uniqueChunksAux l []

/-- Follows the spec's words (§4.4): first-occurrence deduplication by key,
order preserved.  Used to compare the source's dedup loop against the
spec's description. -/
def keepFirstByAux (f : String → String) : List String → List String → List String
  | [], _ => []
  | c :: rest, seen =>
    if seen.contains (f c) then keepFirstByAux f rest seen
    else c :: keepFirstByAux f rest (f c :: seen)

/-- First-occurrence dedup by key, per the spec's words. -/
def keepFirstBy (f : String → String) (l : List String) : List String :=
  keepFirstByAux f l []

/-! ### Structured data and the bot state -/

/-- The eight `structured_data` collections of `WebsiteChatbot.__init__`. -/
structure StructuredData where
  services : List String
  about : List String
  projects : List String
  contact : List String
  pricing : List String
  features : List String
  testimonials : List String
  faq : List String
deriving DecidableEq

/-- The empty `structured_data` dictionary created by `__init__`. -/
def emptySD : StructuredData := ⟨[], [], [], [], [], [], [], []⟩

/-- The `WebsiteChatbot` object state.  The fitted TF-IDF matrix is
represented by the query-to-similarity-row map it induces (`none` models
`tfidf_matrix is None`); similarity scores live in an ordered scalar type
`α` (`ℝ` for the real vectorizer model, `ℚ` for concrete executable
instances). -/
structure Bot (α : Type) where
  urls : List String
  chunks : List String
  tfidf : Option (String → List α)
  vocab : List String
  content_map : List (String × String)
  structured_data : StructuredData

/-- `WebsiteChatbot.__init__(urls)`. -/
def mkBot (α : Type) (urls : List String) : Bot α :=
  { urls := urls, chunks := [], tfidf := none, vocab := [],
    content_map := [], structured_data := emptySD }

/-- The dictionary returned by `get_stats`. -/
structure Stats where
  total_urls : Nat
  total_chunks : Nat
  structuredCounts : List (String × Nat)
  vocabSize : Nat
deriving DecidableEq

/-- `WebsiteChatbot.get_stats`.  `vocabSize` models
`len(self.vectorizer.vocabulary_) if hasattr(...) else 0`: the `vocab`
field is `[]` until a successful fit, so the unfitted case reports 0 as in
the source. -/
def get_stats {α : Type} (bot : Bot α) : Stats :=
  { total_urls := bot.urls.length
  , total_chunks := bot.chunks.length
  , structuredCounts :=
      [(("services"), bot.structured_data.services.length),
       (("about"), bot.structured_data.about.length),
       (("projects"), bot.structured_data.projects.length),
       (("contact"), bot.structured_data.contact.length),
       (("pricing"), bot.structured_data.pricing.length),
       (("features"), bot.structured_data.features.length),
       (("testimonials"), bot.structured_data.testimonials.length),
       (("faq"), bot.structured_data.faq.length)]
  , vocabSize := bot.vocab.length }

/-! ### `retrieve_relevant_chunks`

The similarity row (one cosine score per chunk) is a `List α`; the loop over
`np.argsort(similarities)[-k*3:][::-1]` is modelled index by index.
`np.argsort` is ascending; its tie order for the default kind is modelled by
the stable order, i.e. ascending `(value, index)` lexicographic (numpy uses
insertion sort on small arrays, which is stable). -/

section Retrieval

variable {α : Type} [LinearOrder α] [Zero α]

/-- `similarities[idx]` (indices produced by argsort are always in range;
out-of-range defaults to 0). -/
def simAt (sims : List α) (i : Nat) : α := sims.getD i 0

/-- Ascending `(value, index)` lexicographic order on indices: the sort key
of the modelled `np.argsort`. -/
def idxLe (sims : List α) (i j : Nat) : Prop :=
  simAt sims i < simAt sims j ∨ (simAt sims i = simAt sims j ∧ i ≤ j)

instance (sims : List α) : DecidableRel (idxLe sims) := fun i j => by
  unfold idxLe; infer_instance

/-- `np.argsort(similarities)` (ascending, ties by index). -/
def argsortAsc (sims : List α) : List Nat :=
  List.insertionSort (idxLe sims) (List.range sims.length)

/-- `np.argsort(similarities)[-k*3:][::-1]`: the candidate pool, highest
similarity first.  (Python's `[-0:]` is the whole list.) -/
def topIdx (sims : List α) (k : Nat) : List Nat :=
  let s := argsortAsc sims
  (if k * 3 = 0 then s else s.drop (s.length - k * 3)).reverse

/-- The filter/dedup/truncate loop of `retrieve_relevant_chunks`: walk the
pool, keep `(idx, score)` when the score clears `min_score` and the chunk
text is unseen, and stop once `k` results are collected (the break test runs
after every iteration, as in the source). -/
def pickLoop (chunks : List String) (sims : List α) (min_score : α) (k : Nat) :
    List Nat → List String → Nat → List (Nat × α)
  | [], _, _ => []
  | idx :: rest, seen, cnt =>
    let score := simAt sims idx
    let chunk := chunks.getD idx ""
    if decide (min_score ≤ score) && !(seen.contains chunk) then
      if k ≤ cnt + 1 then [(idx, score)]
      else (idx, score) :: pickLoop chunks sims min_score k rest (chunk :: seen) (cnt + 1)
    else
      if k ≤ cnt then [] else pickLoop chunks sims min_score k rest seen cnt

/-- The retrieval result at index level (which chunk indices are returned,
with their scores, in order). -/
def retrievePicked (chunks : List String) (sims : List α) (k : Nat) (min_score : α) :
    List (Nat × α) :=
  pickLoop chunks sims min_score k (topIdx sims k) [] 0

/-- `retrieve_relevant_chunks` given the similarity row of a query: the
returned `(chunk, score)` pairs. -/
def retrieveFromSims (chunks : List String) (sims : List α) (k : Nat) (min_score : α) :
    List (String × α) :=
  (retrievePicked chunks sims k min_score).map (fun p => (chunks.getD p.1 (""), p.2))

/-- `WebsiteChatbot.retrieve_relevant_chunks`: empty when the index is
unbuilt (`tfidf_matrix is None`) or the chunk list is empty. -/
def retrieve_relevant_chunks (bot : Bot α) (query : String) (k : Nat) (min_score : α) :
    List (String × α) :=
  match bot.tfidf with
  | none => []
  | some sims =>
    if bot.chunks.length = 0 then []
    else retrieveFromSims bot.chunks (sims query) k min_score

end Retrieval

/-! ### Regex engine fragments

`chatbot.py` uses `re.findall` with a handful of fixed patterns.  Python's
backtracking semantics is reproduced for exactly those patterns: greedy
quantifiers try longest first, ordered alternatives, leftmost
non-overlapping scan.  Scanners take a fuel argument; fuel is always
instantiated to the input length plus one, which suffices because every
step consumes at least one character. -/

/-- Maximal run of characters satisfying `p`, plus the rest. -/
def takeRun (p : Char → Bool) : List Char → List Char × List Char
  | [] => ([], [])
  | c :: rest =>
    if p c then
      let r := takeRun p rest
      (c :: r.1, r.2)
    else ([], c :: rest)

/-- Class `[\w\.-]` of the contact-pattern emails. -/
def emailLocalCh (c : Char) : Bool := pyWordCh c || c = '.' || c = '-'

/-- Class `[:\s]` separating the keyword from the captured value. -/
def colonWsCh (c : Char) : Bool := c = ':' || isWs c

/-- Class `[\+\d\s\-\(\)]` of the contact-pattern phone group. -/
def phoneGroupCh (c : Char) : Bool :=
  c = '+' || c.isDigit || isWs c || c = '-' || c = '(' || c = ')'

/-- Positions of `'.'` in a character list. -/
def dotPositions (dom : List Char) : List Nat :=
  (List.range dom.length).filter (fun p => dom.getD p (' ') = '.')

/-- Greedy split of `[\w\.-]+\.\w+` over a maximal `[\w\.-]` run: pick the
rightmost dot with a nonempty prefix and a word character after it; the
final `\w+` is the maximal word run there.  Returns
`(prefix, word-run, leftover-of-run)`. -/
def emailDomSplit (dom : List Char) : Option (List Char × List Char × List Char) :=
  match ((dotPositions dom).filter
      (fun p => decide (1 ≤ p) && pyWordCh (dom.getD (p + 1) (' ')))).reverse with
  | [] => none
  | p :: _ =>
    let r := takeRun pyWordCh (dom.drop (p + 1))
    some (dom.take p, r.1, r.2)

/-- Match `[\w\.-]+@[\w\.-]+\.\w+` at the head of `s`; returns the matched
characters and the rest.  No backtracking is needed at the `@`: the class
excludes `@`, so the greedy local part is deterministic. -/
def matchEmailGroup (s : List Char) : Option (List Char × List Char) :=
  let loc := takeRun emailLocalCh s
  if loc.1.isEmpty then none
  else
    match loc.2 with
    | '@' :: r2 =>
      let dom := takeRun emailLocalCh r2
      match emailDomSplit dom.1 with
      | some (d1, tld, leftover) =>
        some (loc.1 ++ ['@'] ++ d1 ++ ['.'] ++ tld, leftover ++ dom.2)
      | none => none
    | _ => none

/-- Match `([\+\d\s\-\(\)]{10,})` right after the greedy `[:\s]*` in
`phone[:\s]*(...)`/`call[:\s]*(...)`.  The separator run and the group
class overlap on whitespace, so on a short group the engine gives
whitespace back from the end of the separator run (minimally, because
`[:\s]*` is greedy); a `':'` blocks further giveback. -/
def matchPhoneGroupAfter (after : List Char) : Option (List Char × List Char) :=
  let sep := takeRun colonWsCh after
  let run := takeRun phoneGroupCh sep.2
  if 10 ≤ run.1.length then some (run.1, run.2)
  else
    let need := 10 - run.1.length
    let give := (sep.1.reverse.takeWhile isWs).length
    if need ≤ give then some (sep.1.drop (sep.1.length - need) ++ run.1, run.2)
    else none

/-- Case-insensitive literal-word match at the head (`re.IGNORECASE`); the
word is given lowercased. -/
def isPrefixCI (word s : List Char) : Bool :=
  isPrefixL word (lowerL (s.take word.length))

/-- Leftmost non-overlapping scan for `word[:\s]*(<matcher>)`, collecting
the captured group of each match (the semantics of `re.findall` with one
group).  Fuel bounds the recursion; each step consumes one character or a
whole match. -/
def scanAfterWord (word : List Char) (matcher : List Char → Option (List Char × List Char)) :
    Nat → List Char → List String
  | 0, _ => []
  | _ + 1, [] => []
  | fuel + 1, c :: rest =>
    if isPrefixCI word (c :: rest) then
      let after := (c :: rest).drop word.length
      match matcher after with
      | some (m, remaining) => String.mk m :: scanAfterWord word matcher fuel remaining
      | none => scanAfterWord word matcher fuel rest
    else scanAfterWord word matcher fuel rest

/-- `re.findall(r'<word>[:\s]*([\w\.-]+@[\w\.-]+\.\w+)', chunk, re.IGNORECASE)`:
the separator run is consumed greedily (its class is disjoint from the
group's first class, so no backtracking arises). -/
def findallEmailAfter (word : String) (s : String) : List String :=
  scanAfterWord word.data
    (fun after =>
      let sep := takeRun colonWsCh after
      matchEmailGroup sep.2)
    (s.length + 1) s.data

/-- `re.findall(r'<word>[:\s]*([\+\d\s\-\(\)]{10,})', chunk, re.IGNORECASE)`. -/
def findallPhoneAfter (word : String) (s : String) : List String :=
  scanAfterWord word.data matchPhoneGroupAfter (s.length + 1) s.data

/-- The four contact fallback patterns of `generate_contact_response`, in
source order, applied to one chunk. -/
def contactPatternMatches (chunk : String) : List String :=
  findallEmailAfter ("email") chunk ++ findallPhoneAfter ("phone") chunk ++
  findallEmailAfter ("contact") chunk ++ findallPhoneAfter ("call") chunk

/-! #### The full-text email pattern of `extract_from_full_text`
`\b[A-Za-z0-9._%+-]+@[A-Za-z0-9.-]+\.[A-Z|a-z]{2,}\b` (IGNORECASE) -/

/-- Class `[A-Za-z0-9._%+-]`. -/
def ftLocalCh (c : Char) : Bool :=
  c.isAlpha || c.isDigit || c = '.' || c = '_' || c = '%' || c = '+' || c = '-'

/-- Class `[A-Za-z0-9.-]`. -/
def ftDomCh (c : Char) : Bool := c.isAlpha || c.isDigit || c = '.' || c = '-'

/-- Class `[A-Z|a-z]` (the literal `|` is part of the class in the source). -/
def tldCh (c : Char) : Bool := c.isAlpha || c = '|'

/-- `\b` between an optional previous character and an optional next
character: word-ness changes. -/
def wordBoundary (prev next : Option Char) : Bool :=
  (match prev with | some c => pyWordCh c | none => false) ≠
  (match next with | some c => pyWordCh c | none => false)

/-- Try the TLD part `[A-Z|a-z]{2,}\b` at `s`: greedy, backing off one
character at a time until the trailing boundary holds, never below 2. -/
def tryTld (s : List Char) : Option (List Char × List Char) :=
  let run := takeRun tldCh s
  let rec go : Nat → Option (List Char × List Char)
    | 0 => none
    | n + 1 =>
      let len := n + 1
      if len < 2 then none
      else
        let tld := run.1.take len
        let rest := run.1.drop len ++ run.2
        if wordBoundary (tld.getLast? ) (rest.head?) then some (tld, rest)
        else go n
  go run.1.length

/-- Try the full-text email pattern anchored at the head of `s` (with the
character preceding `s` given for the leading `\b`). -/
def tryFtEmailAt (prev : Option Char) (s : List Char) : Option (List Char × List Char) :=
  if !wordBoundary prev s.head? then none
  else
    let loc := takeRun ftLocalCh s
    if loc.1.isEmpty then none
    else
      match loc.2 with
      | '@' :: r2 =>
        let dom := takeRun ftDomCh r2
        -- greedy [A-Za-z0-9.-]+ : try dots rightmost first
        let dots := ((dotPositions dom.1).filter (fun p => decide (1 ≤ p))).reverse
        (dots.findSome? (fun p =>
          (tryTld (dom.1.drop (p + 1) ++ dom.2)).map (fun tr =>
            (loc.1 ++ ['@'] ++ dom.1.take p ++ ['.'] ++ tr.1, tr.2)))) |>.map id
      | _ => none

/-- Leftmost non-overlapping scan of the full-text email pattern
(`re.findall` without groups returns whole matches). -/
def scanFtEmails : Nat → Option Char → List Char → List String
  | 0, _, _ => []
  | _ + 1, _, [] => []
  | fuel + 1, prev, c :: rest =>
    match tryFtEmailAt prev (c :: rest) with
    | some (m, remaining) => String.mk m :: scanFtEmails fuel m.getLast? remaining
    | none => scanFtEmails fuel (some c) rest

/-- All matches of the full-text email pattern. -/
def findallFtEmails (s : String) : List String := scanFtEmails (s.length + 1) none s.data

/-! #### The full-text phone pattern of `extract_from_full_text`
`(\+\d{1,3}[-.\s]?)?\(?\d{3}\)?[-.\s]?\d{3}[-.\s]?\d{4}`
`re.findall` with exactly one group returns the group text (the optional
country-code part), not the whole number. -/

/-- Exactly `n` digits. -/
def digitsN : Nat → List Char → Option (List Char × List Char)
  | 0, s => some ([], s)
  | n + 1, c :: rest =>
    if c.isDigit then (digitsN n rest).map (fun r => (c :: r.1, r.2)) else none
  | _ + 1, [] => none

/-- Candidates for `[-.\s]?`, greedy order (consume, then skip). -/
def sepCands : List Char → List (List Char × List Char)
  | c :: rest =>
    if c = '-' || c = '.' || isWs c then [([c], rest), ([], c :: rest)]
    else [([], c :: rest)]
  | [] => [([], [])]

/-- Candidates for an optional literal character, greedy order. -/
def litCands (ch : Char) : List Char → List (List Char × List Char)
  | c :: rest => if c = ch then [([c], rest), ([], c :: rest)] else [([], c :: rest)]
  | [] => [([], [])]

/-- Candidates for the optional country group `(\+\d{1,3}[-.\s]?)?`, in
greedy order: present (3, 2, then 1 digits; separator then no separator),
then absent.  Each candidate is `(captured-group, rest)`. -/
def countryCands (s : List Char) : List (List Char × List Char) :=
  (match s with
   | '+' :: r1 =>
     ([3, 2, 1].filterMap (fun n =>
        (digitsN n r1).map (fun d => (('+' :: d.1), d.2)))).flatMap
       (fun gd => (sepCands gd.2).map (fun sp => (gd.1 ++ sp.1, sp.2)))
   | _ => []) ++ [([], s)]

/-- Try the full-text phone pattern at the head of `s`; returns
`(captured country group, rest-after-whole-match)`. -/
def tryFtPhoneAt (s : List Char) : Option (List Char × List Char) :=
  (countryCands s).findSome? (fun g =>
    (litCands '(' g.2).findSome? (fun p1 =>
      (digitsN 3 p1.2).bind (fun d1 =>
        (litCands ')' d1.2).findSome? (fun p2 =>
          (sepCands p2.2).findSome? (fun s1 =>
            (digitsN 3 s1.2).bind (fun d2 =>
              (sepCands d2.2).findSome? (fun s2 =>
                (digitsN 4 s2.2).map (fun d3 => (g.1, d3.2)))))))))

/-- Leftmost non-overlapping scan of the full-text phone pattern,
collecting captured groups. -/
def scanFtPhones : Nat → List Char → List String
  | 0, _ => []
  | _ + 1, [] => []
  | fuel + 1, c :: rest =>
    match tryFtPhoneAt (c :: rest) with
    | some (g, remaining) => String.mk g :: scanFtPhones fuel remaining
    | none => scanFtPhones fuel rest

/-- All group captures of the full-text phone pattern. -/
def findallFtPhones (s : String) : List String := scanFtPhones (s.length + 1) s.data

/-! ### `extract_from_full_text` -/

/-- The `service_keywords` families of `extract_from_full_text`, in source
order. -/
def serviceFamilies : List (String × List String) :=
  [(("web development"), ["website", "web app", "frontend", "backend", "full stack"]),
   (("digital marketing"), ["seo", "social media", "marketing", "campaign", "ads"]),
   (("app development"), ["mobile app", "ios", "android", "flutter", "react native"]),
   (("branding"), ["brand", "logo", "identity", "design system"]),
   (("content creation"), ["content", "blog", "article", "copywriting"]),
   (("ai automation"), ["ai", "artificial intelligence", "automation", "machine learning"])]

/-- `WebsiteChatbot.extract_from_full_text(text, url)` acting on the
`structured_data` state: email/phone regex extraction into `contact`
(skipped when the URL contains "contact"), then service keyword families
into `services` without duplicates.  `url` arrives already lowercased (the
caller passes `url_lower`). -/
def extract_from_full_text (sd : StructuredData) (text : String) (url : String) :
    StructuredData :=
  let emails := findallFtEmails text
  let sd1 :=
    if !emails.isEmpty && !containsSub ("contact") url then
      { sd with contact := sd.contact ++ (emails.take 3).map (fun e => ("Email: ") ++ e) }
    else sd
  let phones := findallFtPhones text
  let sd2 :=
    if !phones.isEmpty && !containsSub ("contact") url then
      { sd1 with contact := sd1.contact ++ (phones.take 2).map (fun p => ("Phone: ") ++ p) }
    else sd1
  serviceFamilies.foldl
    (fun acc fam =>
      if fam.2.any (fun kw => containsSub kw (lowerStr text)) &&
          !(acc.services.contains fam.1) then
        { acc with services := acc.services ++ [fam.1] }
      else acc) sd2

/-! ### Response generators (4.6a) -/

/-- Python `str.title()`: uppercase a letter that follows a non-letter,
lowercase other letters. -/
def titleCaseAux : List Char → Bool → List Char
  | [], _ => []
  | c :: rest, prevAlpha =>
    (if c.isAlpha then (if prevAlpha then c.toLower else c.toUpper) else c) ::
      titleCaseAux rest c.isAlpha

/-- Python `str.title()`. -/
def titleCase (s : String) : String := String.mk (titleCaseAux s.data false)

/-- Append `f i item` for each item, numbering from `start` (the
`for i, x in enumerate(items, 1): response += ...` idiom). -/
def enumFold (f : Nat → String → String) (start : Nat) (items : List String) : String :=
  (items.foldl (fun (acc : String × Nat) it => (acc.1 ++ f acc.2 it, acc.2 + 1))
    (("", start))).1

/-- Append `f item` for each item (the unnumbered `response += ...` loops). -/
def strFold (f : String → String) (items : List String) : String :=
  items.foldl (fun acc it => acc ++ f it) ("")

/-- The `service_keywords` fallback list of `generate_service_response`. -/
def serviceKeywordList : List String :=
  ["web development", "website development", "web design",
   "digital marketing", "seo", "social media marketing",
   "app development", "mobile app", "application development",
   "branding", "brand identity", "logo design",
   "content creation", "content marketing", "copywriting",
   "ai automation", "artificial intelligence", "machine learning",
   "software development", "ecommerce", "shopify", "wordpress"]

/-- The chunk scan of `generate_service_response`: append `keyword.title()`
when the keyword occurs in the lowercased chunk and is not already present.
(The membership test compares the raw keyword against the titled entries,
as in the source.) -/
def collectServiceKeywords (chunks : List String) : List String :=
  chunks.foldl
    (fun found chunk =>
      serviceKeywordList.foldl
        (fun fnd kw =>
          if containsSub kw (lowerStr chunk) && !(fnd.contains kw) then
            fnd ++ [titleCase kw]
          else fnd)
        found)
    []

/-- Hard-coded fallback of `generate_service_response`. -/
def serviceFallbackResponse : String :=
  "I specialize in digital solutions including web development, digital marketing, and custom software services. Could you be more specific about what you\x27re looking for?"

/-- Header of the services template. -/
def serviceHeader : String := "🚀 **OUR DIGITAL SERVICES**\n\n"

/-- The services template body over a given collection. -/
def serviceTemplate (services : List String) : String :=
  serviceHeader ++
    "At NixVixa, we offer comprehensive digital transformation solutions:\n\n" ++
    enumFold
      (fun i s => toString i ++ (". **") ++ titleCase s ++
        ("** - Professional ") ++ lowerStr s ++
        (" services tailored to your business needs\n"))
      1 (services.take 8) ++
    "\n💡 *Each service includes strategy, implementation, and ongoing support.*" ++
    "\n\nWhich service are you interested in learning more about?"

/-- `WebsiteChatbot.generate_service_response` (reads state only; the local
`services` name is rebound, never mutated through). -/
def generate_service_response {α : Type} (bot : Bot α) : String × Bot α :=
  let services :=
    if bot.structured_data.services.isEmpty then
      (collectServiceKeywords bot.chunks).take 10
    else bot.structured_data.services
  if services.isEmpty then (serviceFallbackResponse, bot)
  else (serviceTemplate services, bot)

/-- The `about_keywords` of `generate_about_response`. -/
def aboutKeywords : List String :=
  ["about", "company", "mission", "vision", "values", "story", "team"]

/-- Hard-coded fallback of `generate_about_response`. -/
def aboutFallbackResponse : String :=
  "NixVixa is a digital solutions provider specializing in web development, digital marketing, and custom software solutions. We help businesses transform their digital presence and achieve their goals through innovative technology."

/-- Header of the about template. -/
def aboutHeader : String := "🏢 **ABOUT NIXVIXA**\n\n"

/-- The about template body over a given collection. -/
def aboutTemplate (info : List String) : String :=
  aboutHeader ++
    strFold (fun i => ("• ") ++ i ++ "\n\n") (info.take 3) ++
    "🌟 *We\x27re committed to delivering exceptional digital experiences that drive business growth.*"

/-- `WebsiteChatbot.generate_about_response`.  `about_info` aliases
`self.structured_data['about']`; when it is empty the chunk scan appends
matching chunks **through the alias**, mutating the bot's structured data
(the returned state reflects this). -/
def generate_about_response {α : Type} (bot : Bot α) : String × Bot α :=
  let about_info := bot.structured_data.about
  if about_info.isEmpty then
    let newAbout := bot.chunks.filter
      (fun c => aboutKeywords.any (fun kw => containsSub kw (lowerStr c)))
    let bot2 := { bot with structured_data := { bot.structured_data with about := newAbout } }
    if newAbout.isEmpty then (aboutFallbackResponse, bot2)
    else (aboutTemplate newAbout, bot2)
  else (aboutTemplate about_info, bot)

/-- The `project_keywords` of `generate_project_response`. -/
def projectKeywords : List String :=
  ["project", "portfolio", "case study", "client work", "success story"]

/-- Hard-coded fallback of `generate_project_response`. -/
def projectFallbackResponse : String :=
  "We\x27ve successfully delivered numerous digital projects across various industries including e-commerce platforms, corporate websites, mobile applications, and digital marketing campaigns. Each project is customized to meet specific client requirements."

/-- Header of the projects template. -/
def projectHeader : String := "📁 **OUR PROJECT PORTFOLIO**\n\n"

/-- The projects template body over a given collection. -/
def projectTemplate (projects : List String) : String :=
  projectHeader ++ "Recent successful projects include:\n\n" ++
    enumFold
      (fun i p =>
        let cp := trimStr (String.mk (collapseWsL p.data))
        let cp2 := if 150 < cp.length then String.mk (cp.data.take 147) ++ "..." else cp
        toString i ++ (". ") ++ cp2 ++ "\n\n")
      1 (projects.take 4) ++
    "🎯 *We deliver tailored solutions that drive measurable results.*"

/-- `WebsiteChatbot.generate_project_response`; like the about generator,
the empty-collection chunk scan appends through the alias, mutating the
bot's `projects` collection. -/
def generate_project_response {α : Type} (bot : Bot α) : String × Bot α :=
  let projects := bot.structured_data.projects
  if projects.isEmpty then
    let newProjects := bot.chunks.filter
      (fun c => projectKeywords.any (fun kw => containsSub kw (lowerStr c)))
    let bot2 := { bot with structured_data := { bot.structured_data with projects := newProjects } }
    if newProjects.isEmpty then (projectFallbackResponse, bot2)
    else (projectTemplate newProjects, bot2)
  else (projectTemplate projects, bot)

/-- The chunk scan of `generate_contact_response`: run the four contact
patterns over every chunk, collecting distinct matches in encounter order. -/
def collectContactMatches (chunks : List String) : List String :=
  chunks.foldl
    (fun acc chunk =>
      (contactPatternMatches chunk).foldl
        (fun a m => if a.contains m then a else a ++ [m]) acc)
    []

/-- The hard-coded contact fallback entries. -/
def contactDefaults : List String :=
  ["Email: contact@nixvixa.com", "Phone: +1 (555) 123-4567", "Website: https://nixvixa.com"]

/-- Header of the contact template. -/
def contactHeader : String := "📞 **CONTACT NIXVIXA**\n\n"

/-- The contact template body over a given collection. -/
def contactTemplate (info : List String) : String :=
  contactHeader ++ "Get in touch with our team:\n\n" ++
    strFold (fun i => ("• ") ++ i ++ "\n") (info.take 5) ++
    "\n📍 *We\x27re available Monday-Friday, 9AM-6PM EST*" ++
    "\n\n💬 *You can also schedule a consultation through our website.*"

/-- `WebsiteChatbot.generate_contact_response`.  When the structured
`contact` collection is empty, extraction appends through the alias
(mutating the state); only the hard-coded default rebinds locally without
mutation. -/
def generate_contact_response {α : Type} (bot : Bot α) : String × Bot α :=
  let contact_info := bot.structured_data.contact
  if contact_info.isEmpty then
    let extracted := collectContactMatches bot.chunks
    let bot2 := { bot with structured_data := { bot.structured_data with contact := extracted } }
    let info := if extracted.isEmpty then contactDefaults else extracted
    (contactTemplate info, bot2)
  else (contactTemplate contact_info, bot)

/-! ### `generate_response` routing -/

/-- The greeting tokens (prefix-tested). -/
def greetings : List String :=
  ["hi", "hello", "hey", "good morning", "good afternoon", "good evening", "hola", "namaste"]

/-- The farewell tokens (substring-tested). -/
def farewells : List String :=
  ["bye", "goodbye", "exit", "quit", "see you", "thanks bye", "thank you bye"]

/-- The gratitude tokens (substring-tested). -/
def thanksPhrases : List String := ["thank", "thanks", "appreciate"]

/-- The `service_queries` keywords. -/
def serviceQueries : List String :=
  ["service", "offer", "provide", "what do you do", "solutions",
   "web development", "digital marketing", "app development", "branding",
   "seo", "social media", "content creation", "ai automation"]

/-- The `about_queries` keywords. -/
def aboutQueries : List String :=
  ["about", "company", "who are you", "nixvixa", "story",
   "mission", "vision", "values", "team"]

/-- The `project_queries` keywords. -/
def projectQueries : List String :=
  ["project", "portfolio", "work", "case study",
   "examples", "show me your work", "previous work"]

/-- The `contact_queries` keywords. -/
def contactQueries : List String :=
  ["contact", "email", "phone", "address", "reach",
   "call", "location", "get in touch", "support"]

/-- The pricing keywords. -/
def pricingWords : List String := ["price", "cost", "how much", "pricing", "fee", "rate"]

/-- The fixed greeting template. -/
def greetingResponse : String :=
  "👋 Hello! Welcome to **NixVixa Digital Solutions**! \n\nI\x27m your AI assistant, here to provide detailed information about our services, projects, and expertise. \n\nHow can I help you today? You can ask about:\n• Our services\n• Company information\n• Project portfolio\n• Contact details\n• Pricing information"

/-- The fixed farewell template. -/
def farewellResponse : String :=
  "👋 Thank you for chatting with NixVixa! \n\nWe\x27re here to help transform your digital presence. Feel free to reach out anytime! \n\nHave a great day! 🚀"

/-- The fixed gratitude template. -/
def thanksResponse : String :=
  "You\x27re welcome! 😊 \n\nIs there anything else about NixVixa\x27s services you\x27d like to know?"

/-- The fixed pricing template. -/
def pricingResponse : String :=
  "💰 **PRICING INFORMATION**\n\nOur pricing varies based on project scope, complexity, and requirements. We offer:\n\n• **Custom Quotes** for enterprise solutions\n• **Package Deals** for standard services\n• **Hourly Rates** for consulting\n• **Monthly Retainers** for ongoing support\n\n📊 *For an accurate quote, please share your project details or schedule a consultation.*"

/-- The short-input clarification template of the retrieval fallback. -/
def clarifyResponse : String :=
  "🤔 I\x27d be happy to help! Could you please provide more details about what you\x27re looking for?"

/-- The no-results template of the retrieval fallback. -/
def notFoundResponse : String :=
  "🔍 I couldn\x27t find specific information about that in our current knowledge base. \n\nHowever, I can help you with:\n• Service information\n• Company details\n• Project examples\n• Contact information\n• Pricing inquiries\n\nPlease try rephrasing your question or ask about one of these topics!"

/-- `s.split(sep)` on a single character; `acc` holds the current piece
reversed. -/
def splitOnChAux (sep : Char) : List Char → List Char → List String
  | acc, [] => [String.mk acc.reverse]
  | acc, c :: rest =>
    if c = sep then String.mk acc.reverse :: splitOnChAux sep [] rest
    else splitOnChAux sep (c :: acc) rest

/-- `url.split('/')[-1].replace('-', ' ').title()`. -/
def pageNameOf (url : String) : String :=
  let last := (splitOnChAux '/' [] url.data).getLastD ("")
  titleCase (String.mk (last.data.map (fun c => if c = '-' then ' ' else c)))

/-- Dictionary lookup in `content_map` (later assignments overwrite, so
search from the most recent entry). -/
def lookupMap (m : List (String × String)) (key : String) : Option String :=
  (m.reverse.find? (fun p => p.1 = key)).map (fun p => p.2)

/-- Does the string end in `.`, `!` or `?` (`str.endswith(('.', '!', '?'))`)? -/
def endsWithPunct (s : String) : Bool := punctHead s.data.reverse

/-- The retrieval-result formatting block of `generate_response`
(provenance line from `content_map`, punctuation fix-up, fixed footer). -/
def formatResults {α : Type} (bot : Bot α) (results : List (String × α)) : String :=
  let body :=
    ((results.foldl
      (fun (acc : String × Nat) pr =>
        let chunk := pr.1
        let cleanChunk := trimStr (String.mk (collapseWsL chunk.data))
        let fromLine :=
          match lookupMap bot.content_map chunk with
          | some url => ("**") ++ toString acc.2 ++ (". From ") ++ pageNameOf url ++ (":**\n")
          | none => ""
        let cc := if endsWithPunct cleanChunk then cleanChunk else cleanChunk ++ "."
        (acc.1 ++ fromLine ++ cc ++ "\n\n", acc.2 + 1))
      (("", 1))).1)
  "🤖 **Based on our website information:**\n\n" ++ body ++
    "---\n" ++
    "📚 *For more detailed information, please visit our website or contact us directly.*" ++
    "\n\n❓ *Is there anything specific you\x27d like to know more about?*"

/-- `WebsiteChatbot.generate_response(user_text, top_k=5, min_score=0.15)`:
the fixed routing cascade.  Greeting is a prefix test on the lowercased
stripped text; farewell/gratitude/category/pricing are substring tests; the
final branch retrieves with the **raw** `user_text` and falls back to the
clarification or no-results template. -/
def generate_response {α : Type} [LinearOrder α] [Zero α] (bot : Bot α)
    (user_text : String) (top_k : Nat) (min_score : α) : String × Bot α :=
  let text := trimStr (lowerStr user_text)
  if greetings.any (fun g => startsWithStr text g) then (greetingResponse, bot)
  else if farewells.any (fun f => containsSub f text) then (farewellResponse, bot)
  else if thanksPhrases.any (fun p => containsSub p text) then (thanksResponse, bot)
  else if serviceQueries.any (fun q => containsSub q text) then generate_service_response bot
  else if aboutQueries.any (fun q => containsSub q text) then generate_about_response bot
  else if projectQueries.any (fun q => containsSub q text) then generate_project_response bot
  else if contactQueries.any (fun q => containsSub q text) then generate_contact_response bot
  else if pricingWords.any (fun w => containsSub w text) then (pricingResponse, bot)
  else
    let results := retrieve_relevant_chunks bot user_text top_k min_score
    if results.isEmpty then
      if wordCount text < 3 then (clarifyResponse, bot) else (notFoundResponse, bot)
    else (formatResults bot results, bot)

/-! ### The lexical vector index

Modelled from the spec (§4.4): the sklearn `TfidfVectorizer` configured in
`__init__` is an external library.  The spec prescribes: lowercased word
tokens, English stop-word removal, unigrams and bigrams, document-frequency
bounds dropping terms in fewer than 2 chunks or more than 80% of chunks, a
vocabulary cap of 5000, tf-idf weighting, and cosine-similarity ranking
against the query mapped into the same space (out-of-vocabulary terms
contribute zero weight).  Scores are real numbers; smoothed idf
`log((1+n)/(1+df)) + 1` and L2-normalised cosine follow sklearn's
documented formulas. -/

/-- Maximal word-character runs (the `\b\w\w+\b` token pattern keeps runs
of length ≥ 2); `acc` holds the current run reversed. -/
def tokenRunsAux : List Char → List Char → List (List Char)
  | acc, [] => if acc.isEmpty then [] else [acc.reverse]
  | acc, c :: rest =>
    if pyWordCh c then tokenRunsAux (c :: acc) rest
    else if acc.isEmpty then tokenRunsAux [] rest
    else acc.reverse :: tokenRunsAux [] rest

/-- Modelled from the spec: the English stop-word list ("English stop-word
removal"); a representative subset of sklearn's frozen list. -/
def englishStopWords : List String :=
  ["a", "about", "above", "after", "again", "all", "am", "an", "and", "any",
   "are", "as", "at", "be", "because", "been", "before", "being", "below",
   "between", "both", "but", "by", "can", "did", "do", "does", "down",
   "during", "each", "few", "for", "from", "had", "has", "have", "having",
   "he", "her", "here", "hers", "him", "his", "how", "if", "in", "into",
   "is", "it", "its", "just", "me", "more", "most", "my", "no", "nor",
   "not", "now", "of", "off", "on", "once", "only", "or", "other", "our",
   "out", "over", "own", "same", "she", "should", "so", "some", "such",
   "than", "that", "the", "their", "them", "then", "there", "these",
   "they", "this", "those", "through", "to", "too", "under", "until",
   "up", "very", "was", "we", "were", "what", "when", "where", "which",
   "while", "who", "whom", "why", "will", "with", "you", "your"]

/-- Lowercase, tokenize into word runs of length ≥ 2, drop stop words. -/
def tokenize (s : String) : List String :=
  (((tokenRunsAux [] (lowerL s.data)).filter (fun r => decide (2 ≤ r.length))).map
    String.mk).filter (fun t => !(englishStopWords.contains t))

/-- Adjacent-pair bigrams (formed after stop-word removal, joined by one
space, as sklearn does). -/
def bigrams : List String → List String
  | a :: b :: rest => (a ++ " " ++ b) :: bigrams (b :: rest)
  | _ => []

/-- All (1,2)-gram terms of a document. -/
def docTerms (s : String) : List String :=
  let t := tokenize s
  t ++ bigrams t

/-- Term frequency of `t` in document `d`. -/
def termCount (t : String) (d : String) : Nat := (docTerms d).count t

/-- Document frequency of `t` over the corpus. -/
def docFreq (docs : List String) (t : String) : Nat :=
  (docs.filter (fun d => decide (0 < termCount t d))).length

/-- Total corpus count of `t` (used only by the vocabulary cap). -/
def corpusCount (docs : List String) (t : String) : Nat :=
  (docs.map (fun d => termCount t d)).sum

/-- Lexicographic (code-point) string comparison. -/
def charListLe : List Char → List Char → Bool
  | [], _ => true
  | _ :: _, [] => false
  | a :: as, b :: bs => if a < b then true else if b < a then false else charListLe as bs

/-- Boolean string order used to sort the vocabulary alphabetically. -/
def strLeB (a b : String) : Bool := charListLe a.data b.data

/-- Insertion step of the vocabulary sort. -/
def insertByB (le : String → String → Bool) (x : String) : List String → List String
  | [] => [x]
  | y :: ys => if le x y then x :: y :: ys else y :: insertByB le x ys

/-- Insertion sort with a Boolean comparator. -/
def sortByB (le : String → String → Bool) : List String → List String
  | [] => []
  | x :: xs => insertByB le x (sortByB le xs)

/-- The fitted vocabulary: all distinct terms in alphabetical order, pruned
by the document-frequency bounds `df ≥ 2` and `df ≤ 0.8·n`, then capped at
5000 features by highest corpus count (ties alphabetical). -/
def fitVocab (docs : List String) : List String :=
  let terms := sortByB strLeB (keepFirstBy id (docs.flatMap docTerms))
  let pruned := terms.filter
    (fun t => decide (2 ≤ docFreq docs t) && decide (5 * docFreq docs t ≤ 4 * docs.length))
  if pruned.length ≤ 5000 then pruned
  else
    sortByB strLeB
      ((sortByB
        (fun a b => decide (corpusCount docs b < corpusCount docs a) ||
          (decide (corpusCount docs b = corpusCount docs a) && strLeB a b)) pruned).take 5000)

/-- Smoothed inverse document frequency `log((1+n)/(1+df)) + 1`. -/
noncomputable def idfR (docs : List String) (t : String) : ℝ :=
  Real.log ((1 + (docs.length : ℝ)) / (1 + (docFreq docs t : ℝ))) + 1

/-- The (unnormalised) tf-idf vector of a document over the fitted
vocabulary.  Cosine similarity is scale-invariant, so sklearn's L2 row
normalisation cancels and needs no separate modelling. -/
noncomputable def tfidfVecR (docs : List String) (d : String) : List ℝ :=
  (fitVocab docs).map (fun t => (termCount t d : ℝ) * idfR docs t)

/-- Dot product of two equal-length vectors. -/
def dotL (a b : List ℝ) : ℝ := (List.zipWith (fun x y => x * y) a b).sum

/-- Euclidean norm. -/
noncomputable def normL (a : List ℝ) : ℝ := Real.sqrt (dotL a a)

/-- Cosine similarity; a zero vector yields 0 (division by zero is 0 in
Lean, matching sklearn's zero-row convention). -/
noncomputable def cosSim (a b : List ℝ) : ℝ := dotL a b / (normL a * normL b)

/-- The similarity row `cosine_similarity(query_vec, tfidf_matrix)`. -/
noncomputable def simsOfR (docs : List String) (q : String) : List ℝ :=
  docs.map (fun d => cosSim (tfidfVecR docs q) (tfidfVecR docs d))

/-- `retrieve_relevant_chunks` over a built corpus, at index level. -/
noncomputable def retrievePickedR (docs : List String) (q : String) (k : Nat)
    (min_score : ℝ) : List (Nat × ℝ) :=
  retrievePicked docs (simsOfR docs q) k min_score

/-- `retrieve_relevant_chunks` over a built corpus: chunk/score pairs. -/
noncomputable def retrieveBuiltR (docs : List String) (q : String) (k : Nat)
    (min_score : ℝ) : List (String × ℝ) :=
  retrieveFromSims docs (simsOfR docs q) k min_score

/-! ### `load_data` -/

/-- `WebsiteChatbot.load_data`, parameterized by the page fetcher.
Modelled from the spec (§4.1): `fetch` returns a page's cleaned full text,
or `""` on any per-URL failure (the fetcher, an external collaborator, is
absorbed into this function argument; the per-page structured-data
extraction it triggers is independent of the chunk pipeline and not
threaded here).  The loop chunks each nonempty page, records provenance,
deduplicates, assigns `self.chunks`, and then either raises (zero unique
chunks) or fits the index. -/
def loadStep (fetch : String → String) (acc : List String × List (String × String))
    (url : String) : List String × List (String × String) :=
  let text := fetch url
  if text = "" then acc
  else
    let cks := split_chunks text url
    (acc.1 ++ cks, acc.2 ++ cks.map (fun c => (c, url)))

noncomputable def load_data (bot : Bot ℝ) (fetch : String → String) :
    Bot ℝ × Except String Unit :=
  let all := bot.urls.foldl (loadStep fetch) (([], []))
  let unique := uniqueChunks all.1
  let bot1 := { bot with chunks := unique, content_map := bot.content_map ++ all.2 }
  if unique.isEmpty then
    (bot1, Except.error ("No content available for chatbot training"))
  else
    ({ bot1 with tfidf := some (fun q => simsOfR unique q), vocab := fitVocab unique },
      Except.ok ())

/-! ### Auxiliary statement-level definitions -/

/-- Does any routing rule of `generate_response` (greeting prefix, farewell
/ gratitude / category / pricing substring) match the normalized message?
Exactly the cascade conditions, in source order. -/
def matchesAnyRule (text : String) : Bool :=
  greetings.any (fun g => startsWithStr text g) ||
  farewells.any (fun f => containsSub f text) ||
  thanksPhrases.any (fun p => containsSub p text) ||
  serviceQueries.any (fun q => containsSub q text) ||
  aboutQueries.any (fun q => containsSub q text) ||
  projectQueries.any (fun q => containsSub q text) ||
  contactQueries.any (fun q => containsSub q text) ||
  pricingWords.any (fun w => containsSub w text)

/-- The bot components that answering a query must never change: chunk
sequence, index, vocabulary, provenance map, URLs, and the structured
collections that no generator writes through (`services`, `pricing`,
`features`, `testimonials`, `faq`). -/
def corePreserved {α : Type} (b2 b : Bot α) : Prop :=
  b2.urls = b.urls ∧ b2.chunks = b.chunks ∧ b2.tfidf = b.tfidf ∧ b2.vocab = b.vocab ∧
  b2.content_map = b.content_map ∧
  b2.structured_data.services = b.structured_data.services ∧
  b2.structured_data.pricing = b.structured_data.pricing ∧
  b2.structured_data.features = b.structured_data.features ∧
  b2.structured_data.testimonials = b.structured_data.testimonials ∧
  b2.structured_data.faq = b.structured_data.faq

/-- A freshly constructed bot over rational scores (used to instantiate
universally quantified theorems at concrete states). -/
def botQ0 : Bot ℚ := mkBot ℚ []

/-- A built-state bot whose only chunk mentions about-keywords while the
structured `about` collection is empty. -/
def botCexA : Bot ℚ :=
  { urls := [], chunks := [("our story and mission drive this team forward every single day")],
    tfidf := none, vocab := [], content_map := [], structured_data := emptySD }

/-- A concrete corpus whose third chunk shares no document-frequency-
surviving term with the others: every term of the third chunk has `df = 1`
and is pruned, so its vector (and the vector of any query equal to its
text) is zero. -/
def zDocs : List String :=
  [("alpha beta gamma delta"), ("alpha beta gamma epsilon"), ("zulu yankee xray whiskey")]

/-- A concrete corpus whose second chunk's term counts are exactly twice
the first chunk's on the surviving vocabulary, making their tf-idf vectors
proportional (cosine 1 against each other's text). -/
def propDocs : List String :=
  [("alpha beta"), ("alpha beta alpha beta"), ("gamma delta gamma")]

/-- A concrete corpus where the first chunk's similarity to every other
chunk is strictly below 1. -/
def wDocs : List String :=
  [("alpha beta"), ("alpha beta gamma"), ("gamma delta epsilon")]

/-! ## Theorems -/

/-! ### C4: chunk word-count bounds and the meaningfulness filter -/

theorem countWordsAux_append_space (a b : List Char) (inW : Bool) :
    countWordsAux (a ++ ' ' :: b) inW = countWordsAux a inW + countWordsAux b false := by
  induction a generalizing inW with
  | nil => simp [countWordsAux, isWs]
  | cons c rest ih =>
    by_cases h : isWs c
    · simpa [countWordsAux, h] using ih false
    · simp only [List.cons_append, countWordsAux, h, Bool.false_eq_true, if_false]
      rw [List.append_eq, ih true]
      omega

theorem wordCount_joinSp (l : List String) :
    wordCount (joinSp l) = (l.map wordCount).sum := by
  induction l with
  | nil => simp [joinSp, wordCount, countWordsAux]
  | cons x rest ih =>
    cases rest with
    | nil => simp [joinSp]
    | cons y t =>
      show wordCount (x ++ " " ++ joinSp (y :: t)) = _
      have hdata : (x ++ " " ++ joinSp (y :: t)).data
          = x.data ++ ' ' :: (joinSp (y :: t)).data := by
        simp [String.data_append]
      simp only [wordCount, hdata, countWordsAux_append_space]
      simpa [wordCount] using congrArg (fun n => countWordsAux x.data false + n) ih

theorem closeChunk_mem {min_len : Nat} {current : List String} {curLen : Nat} {c : String}
    (hinv : curLen = (current.map wordCount).sum)
    (hc : c ∈ closeChunk min_len current curLen) :
    min_len ≤ wordCount c ∧ is_meaningful_content c = true := by
  simp only [closeChunk] at hc
  split at hc
  · next hguard =>
    rcases (Bool.and_eq_true _ _).mp hguard with ⟨-, hlen⟩
    split at hc
    · next hm =>
      rcases List.mem_singleton.mp hc with rfl
      refine ⟨?_, hm⟩
      rw [wordCount_joinSp, ← hinv]
      exact of_decide_eq_true hlen
    · exact absurd hc (List.not_mem_nil c)
  · exact absurd hc (List.not_mem_nil c)

theorem chunkLoop_mem {min_len max_len : Nat} :
    ∀ (sents current : List String) (curLen : Nat),
      curLen = (current.map wordCount).sum →
      ∀ c ∈ chunkLoop min_len max_len sents current curLen,
        min_len ≤ wordCount c ∧ is_meaningful_content c = true := by
  intro sents
  induction sents with
  | nil =>
    intro current curLen hinv c hc
    exact closeChunk_mem hinv hc
  | cons s rest ih =>
    intro current curLen hinv c hc
    simp only [chunkLoop] at hc
    split at hc
    · exact ih current curLen hinv c hc
    · split at hc
      · next hfit =>
        refine ih (current ++ [clean_text s]) _ ?_ c hc
        simp [hinv]
      · rcases List.mem_append.mp hc with h | h
        · exact closeChunk_mem hinv h
        · exact ih [clean_text s] _ (by simp) c h

/-- Claim C4 (amended): every chunk accepted by `split_chunks` has word
count at least `min_len` and passes the meaningfulness filter.  (The claim's
upper bound `max_len` fails: a single sentence longer than `max_len` is
still accepted, see the counterexample.) -/
theorem split_chunks_word_floor_and_meaningful
    (text source_url : String) (min_len max_len : Nat) (c : String)
    (hc : c ∈ split_chunks text source_url min_len max_len) :
    min_len ≤ wordCount c ∧ is_meaningful_content c = true := by
  unfold split_chunks at hc
  split at hc
  · exact absurd hc (List.not_mem_nil c)
  · exact chunkLoop_mem (split_sentences text) [] 0 (by simp) c hc

/-- Claim C4, counterexample to the upper bound: with `min_len = 3`,
`max_len = 4`, a single 5-word sentence is accepted as a chunk whose word
count exceeds `max_len`. -/
theorem split_chunks_exceeds_max_len :
    split_chunks ("aaaa bbbb cccc dddd eeee.") ("") 3 4
        = [("aaaa bbbb cccc dddd eeee.")] ∧
      wordCount ("aaaa bbbb cccc dddd eeee.") = 5 ∧ ¬(5 ≤ 4) := by
  refine ⟨by decide, by decide, by decide⟩

/-- Claim C4, witness: the amended theorem applied to a concrete accepted
chunk. -/
theorem split_chunks_word_floor_witness :
    3 ≤ wordCount ("aaaa bbbb cccc dddd eeee.") ∧
      is_meaningful_content ("aaaa bbbb cccc dddd eeee.") = true :=
  split_chunks_word_floor_and_meaningful ("aaaa bbbb cccc dddd eeee.") ("") 3 10
    ("aaaa bbbb cccc dddd eeee.") (by decide)

/-! ### C8: corpus deduplication -/

theorem uniqueChunksAux_sublist : ∀ (l seen : List String),
    (uniqueChunksAux l seen).Sublist l := by
  intro l
  induction l with
  | nil => intro seen; simp [uniqueChunksAux]
  | cons c rest ih =>
    intro seen
    simp only [uniqueChunksAux]
    split
    · exact (ih (normalizeChunk c :: seen)).cons₂ c
    · exact (ih seen).cons c

theorem uniqueChunksAux_length : ∀ (l seen : List String),
    ∀ c ∈ uniqueChunksAux l seen, 30 < c.length := by
  intro l
  induction l with
  | nil => intro seen c hc; simp [uniqueChunksAux] at hc
  | cons a rest ih =>
    intro seen c hc
    simp only [uniqueChunksAux] at hc
    split at hc
    · next hcond =>
      rcases List.mem_cons.mp hc with rfl | h
      · exact of_decide_eq_true ((Bool.and_eq_true _ _).mp hcond).2
      · exact ih _ c h
    · exact ih _ c hc

theorem uniqueChunksAux_pairwise : ∀ (l seen : List String),
    (uniqueChunksAux l seen).Pairwise (fun a b => normalizeChunk a ≠ normalizeChunk b) ∧
      ∀ c ∈ uniqueChunksAux l seen, normalizeChunk c ∉ seen := by
  intro l
  induction l with
  | nil => intro seen; constructor <;> simp [uniqueChunksAux]
  | cons a rest ih =>
    intro seen
    simp only [uniqueChunksAux]
    split
    · next hcond =>
      rcases ih (normalizeChunk a :: seen) with ⟨hpw, hseen⟩
      have hnotin : normalizeChunk a ∉ seen := by
        have := ((Bool.and_eq_true _ _).mp hcond).1
        simpa using this
      constructor
      · refine List.Pairwise.cons ?_ hpw
        intro b hb
        have := hseen b hb
        simp only [List.mem_cons, not_or] at this
        exact fun h => this.1 h.symm
      · intro c hc
        rcases List.mem_cons.mp hc with rfl | h
        · exact hnotin
        · exact fun hmem => (hseen c h) (List.mem_cons_of_mem _ hmem)
    · rcases ih seen with ⟨hpw, hseen⟩
      exact ⟨hpw, hseen⟩

theorem uniqueChunksAux_eq_keepFirst : ∀ (l seen : List String),
    uniqueChunksAux l seen
      = keepFirstByAux normalizeChunk (l.filter (fun c => decide (30 < c.length))) seen := by
  intro l
  induction l with
  | nil => intro seen; simp [uniqueChunksAux, keepFirstByAux]
  | cons a rest ih =>
    intro seen
    by_cases hlen : 30 < a.length
    · have hd : decide (30 < a.length) = true := decide_eq_true hlen
      have hfilter : (a :: rest).filter (fun c => decide (30 < c.length))
          = a :: rest.filter (fun c => decide (30 < c.length)) := by
        simp [List.filter_cons, hd]
      rw [hfilter]
      by_cases hseen : seen.contains (normalizeChunk a)
      · simp only [uniqueChunksAux, keepFirstByAux, hseen, hd,
          Bool.not_true, Bool.false_and, Bool.false_eq_true, if_false, if_true]
        exact ih seen
      · have hseen2 : seen.contains (normalizeChunk a) = false := by
          simpa using hseen
        simp only [uniqueChunksAux, keepFirstByAux, hseen2, hd,
          Bool.not_false, Bool.true_and, if_true, Bool.false_eq_true, if_false]
        rw [ih (normalizeChunk a :: seen)]
    · have hd : decide (30 < a.length) = false := decide_eq_false hlen
      have hfilter : (a :: rest).filter (fun c => decide (30 < c.length))
          = rest.filter (fun c => decide (30 < c.length)) := by
        simp [List.filter_cons, hd]
      rw [hfilter]
      simp only [uniqueChunksAux, hd, Bool.and_false, Bool.false_eq_true, if_false]
      exact ih seen

/-- Claim C8: the dedup stage of `load_data` preserves order (the result is
a sublist of the input), keeps only chunks of length at least 30, leaves no
two retained chunks with the same lowercased whitespace-normalized text,
and equals first-occurrence deduplication (by normalized key) of the
length-filtered input — i.e. among the chunks passing the length floor,
the first occurrence of each normalized text wins. -/
theorem load_data_dedup_properties (l : List String) :
    (uniqueChunks l).Sublist l ∧
      (∀ c ∈ uniqueChunks l, 30 ≤ c.length) ∧
      (uniqueChunks l).Pairwise (fun a b => normalizeChunk a ≠ normalizeChunk b) ∧
      uniqueChunks l
        = keepFirstBy normalizeChunk (l.filter (fun c => decide (30 < c.length))) :=
  ⟨uniqueChunksAux_sublist l [],
   fun c hc => Nat.le_of_lt (uniqueChunksAux_length l [] c hc),
   (uniqueChunksAux_pairwise l []).1,
   uniqueChunksAux_eq_keepFirst l []⟩

/-- Claim C8, witness: the length-floor conjunct applied to a concrete
retained chunk of a concrete corpus. -/
theorem load_data_dedup_witness :
    30 ≤ ("abcdefghijklmnopqrstuvwxyz 12345").length :=
  (load_data_dedup_properties
      [("abcdefghijklmnopqrstuvwxyz 12345"), ("ABCDEFGHIJKLMNOPQRSTUVWXYZ 12345"), ("short")]).2.1
    ("abcdefghijklmnopqrstuvwxyz 12345") (by decide)

/-! ### Routing helpers: distinguishing templates by their first character -/

theorem head?_append_left {a b : List Char} (c : Char) (h : a.head? = some c) :
    (a ++ b).head? = some c := by
  cases a with
  | nil => simp at h
  | cons x xs => simpa using h

theorem head?_str_append {s : String} (t : String) {c : Char} (h : s.data.head? = some c) :
    (s ++ t).data.head? = some c := by
  rw [String.data_append]; exact head?_append_left c h

theorem ne_of_head_char {s t : String} {c d : Char} (hs : s.data.head? = some c)
    (ht : t.data.head? = some d) (hne : c ≠ d) : s ≠ t := by
  intro he
  rw [he, ht] at hs
  exact hne (Option.some.inj hs).symm

theorem greetingResponse_head : greetingResponse.data.head? = some ('👋') := rfl

theorem serviceHeader_head : serviceHeader.data.head? = some ('🚀') := rfl

theorem aboutHeader_head : aboutHeader.data.head? = some ('🏢') := rfl

theorem projectHeader_head : projectHeader.data.head? = some ('📁') := rfl

theorem contactHeader_head : contactHeader.data.head? = some ('📞') := rfl

theorem serviceTemplate_ne_greeting (l : List String) :
    serviceTemplate l ≠ greetingResponse :=
  ne_of_head_char
    (head?_str_append _ (head?_str_append _ (head?_str_append _
      (head?_str_append _ serviceHeader_head))))
    greetingResponse_head (by decide)

theorem serviceFallback_ne_greeting : serviceFallbackResponse ≠ greetingResponse :=
  ne_of_head_char (show serviceFallbackResponse.data.head? = some ('I') from rfl)
    greetingResponse_head (by decide)

theorem aboutTemplate_ne_greeting (l : List String) :
    aboutTemplate l ≠ greetingResponse :=
  ne_of_head_char (head?_str_append _ (head?_str_append _ aboutHeader_head))
    greetingResponse_head (by decide)

theorem aboutFallback_ne_greeting : aboutFallbackResponse ≠ greetingResponse :=
  ne_of_head_char (show aboutFallbackResponse.data.head? = some ('N') from rfl)
    greetingResponse_head (by decide)

theorem projectTemplate_ne_greeting (l : List String) :
    projectTemplate l ≠ greetingResponse :=
  ne_of_head_char
    (head?_str_append _ (head?_str_append _ (head?_str_append _ projectHeader_head)))
    greetingResponse_head (by decide)

theorem projectFallback_ne_greeting : projectFallbackResponse ≠ greetingResponse :=
  ne_of_head_char (show projectFallbackResponse.data.head? = some ('W') from rfl)
    greetingResponse_head (by decide)

theorem contactTemplate_ne_greeting (l : List String) :
    contactTemplate l ≠ greetingResponse :=
  ne_of_head_char
    (head?_str_append _ (head?_str_append _ (head?_str_append _
      (head?_str_append _ contactHeader_head))))
    greetingResponse_head (by decide)

theorem pricing_ne_greeting : pricingResponse ≠ greetingResponse :=
  ne_of_head_char (show pricingResponse.data.head? = some ('💰') from rfl)
    greetingResponse_head (by decide)

theorem generate_service_response_ne_greeting {α : Type} (b : Bot α) :
    (generate_service_response b).1 ≠ greetingResponse := by
  simp only [generate_service_response]
  split
  · split
    · exact serviceFallback_ne_greeting
    · exact serviceTemplate_ne_greeting _
  · exact serviceTemplate_ne_greeting _

theorem generate_about_response_ne_greeting {α : Type} (b : Bot α) :
    (generate_about_response b).1 ≠ greetingResponse := by
  simp only [generate_about_response]
  split
  · split
    · exact aboutFallback_ne_greeting
    · exact aboutTemplate_ne_greeting _
  · exact aboutTemplate_ne_greeting _

theorem generate_project_response_ne_greeting {α : Type} (b : Bot α) :
    (generate_project_response b).1 ≠ greetingResponse := by
  simp only [generate_project_response]
  split
  · split
    · exact projectFallback_ne_greeting
    · exact projectTemplate_ne_greeting _
  · exact projectTemplate_ne_greeting _

theorem generate_contact_response_ne_greeting {α : Type} (b : Bot α) :
    (generate_contact_response b).1 ≠ greetingResponse := by
  simp only [generate_contact_response]
  split
  · exact contactTemplate_ne_greeting _
  · exact contactTemplate_ne_greeting _

/-! ### C2: greeting beats category keywords (routing priority) -/

/-- Claim C2: whenever the lowercased stripped message starts with a
greeting token — even when it also contains a category keyword, as in
"hello, what services do you offer" — `generate_response` returns the fixed
greeting template, which is distinct from every category generator output
and from the pricing template: the greeting check runs first and
short-circuits. -/
theorem greeting_priority_over_category {α : Type} [LinearOrder α] [Zero α]
    (bot b2 : Bot α) (s : String) (k : Nat) (m : α)
    (h : greetings.any (fun g => startsWithStr (trimStr (lowerStr s)) g) = true) :
    (generate_response bot s k m).1 = greetingResponse ∧
      (generate_service_response b2).1 ≠ greetingResponse ∧
      (generate_about_response b2).1 ≠ greetingResponse ∧
      (generate_project_response b2).1 ≠ greetingResponse ∧
      (generate_contact_response b2).1 ≠ greetingResponse ∧
      pricingResponse ≠ greetingResponse := by
  refine ⟨?_, generate_service_response_ne_greeting b2,
    generate_about_response_ne_greeting b2, generate_project_response_ne_greeting b2,
    generate_contact_response_ne_greeting b2, pricing_ne_greeting⟩
  simp only [generate_response, h, if_true]

/-- Claim C2, witness at the claim's own example message. -/
theorem greeting_priority_witness :
    (generate_response botQ0 ("hello, what services do you offer") 5 ((3 : ℚ)/20)).1
        = greetingResponse ∧
      (generate_service_response botQ0).1 ≠ greetingResponse ∧
      (generate_about_response botQ0).1 ≠ greetingResponse ∧
      (generate_project_response botQ0).1 ≠ greetingResponse ∧
      (generate_contact_response botQ0).1 ≠ greetingResponse ∧
      pricingResponse ≠ greetingResponse :=
  greeting_priority_over_category botQ0 botQ0 ("hello, what services do you offer") 5
    ((3 : ℚ)/20) (by decide)

/-! ### C10: greeting detection is a raw prefix test -/

/-- Claim C10: greeting detection is a raw string-prefix test on the
lowercased stripped message, not a word-boundary match: any message whose
normalized text begins with a greeting token (e.g. "history of the
company", which begins with "hi") gets the fixed greeting template and the
unchanged state — category routing and retrieval are never reached. -/
theorem greeting_raw_prefix_test {α : Type} [LinearOrder α] [Zero α]
    (bot : Bot α) (s : String) (k : Nat) (m : α)
    (h : greetings.any (fun g => startsWithStr (trimStr (lowerStr s)) g) = true) :
    generate_response bot s k m = (greetingResponse, bot) := by
  simp only [generate_response, h, if_true]

/-- Claim C10, witness: "history of the company" triggers the greeting
template because it starts with "hi". -/
theorem greeting_raw_prefix_witness :
    generate_response botQ0 ("history of the company") 5 ((3 : ℚ)/20)
      = (greetingResponse, botQ0) :=
  greeting_raw_prefix_test botQ0 ("history of the company") 5 ((3 : ℚ)/20) (by decide)

/-! ### C5: what answering a query does (and does not) mutate -/

theorem generate_service_response_state {α : Type} (b : Bot α) :
    (generate_service_response b).2 = b := by
  simp only [generate_service_response]
  split
  · split <;> rfl
  · rfl

theorem generate_about_response_frame {α : Type} (b : Bot α) :
    corePreserved ((generate_about_response b).2) b := by
  simp only [generate_about_response]
  split
  · split <;> simp [corePreserved]
  · simp [corePreserved]

theorem generate_project_response_frame {α : Type} (b : Bot α) :
    corePreserved ((generate_project_response b).2) b := by
  simp only [generate_project_response]
  split
  · split <;> simp [corePreserved]
  · simp [corePreserved]

theorem generate_contact_response_frame {α : Type} (b : Bot α) :
    corePreserved ((generate_contact_response b).2) b := by
  simp only [generate_contact_response]
  split
  · simp [corePreserved]
  · simp [corePreserved]

/-- Claim C5 (amended): answering a query never changes the chunk sequence,
the index, the vocabulary, the provenance map, the URLs, or the
`services`/`pricing`/`features`/`testimonials`/`faq` collections — but the
`about`, `projects` and `contact` collections are **not** protected: their
generators append chunk-derived fallback entries through the alias when the
collection is empty (see the counterexample). -/
theorem generate_response_frame {α : Type} [LinearOrder α] [Zero α]
    (bot : Bot α) (msg : String) (k : Nat) (m : α) :
    corePreserved ((generate_response bot msg k m).2) bot := by
  have hrefl : corePreserved bot bot := by
    simp [corePreserved]
  simp only [generate_response]
  split
  · exact hrefl
  split
  · exact hrefl
  split
  · exact hrefl
  split
  · rw [generate_service_response_state]; exact hrefl
  split
  · exact generate_about_response_frame bot
  split
  · exact generate_project_response_frame bot
  split
  · exact generate_contact_response_frame bot
  split
  · exact hrefl
  split
  · split
    · exact hrefl
    · exact hrefl
  · exact hrefl

/-- Claim C5, counterexample: on a bot whose structured `about` collection
is empty and whose chunks mention about-keywords, answering "who are you"
mutates the bot — the about generator writes the chunk-derived entries into
the structured store through the alias. -/
theorem generate_response_mutates_about :
    ((generate_response botCexA ("who are you") 5 ((3 : ℚ)/20)).2).structured_data.about
        = [("our story and mission drive this team forward every single day")] ∧
      botCexA.structured_data.about = [] := by
  constructor
  · decide
  · rfl

/-! ### C7: total responses and the unbuilt-index behaviour -/

/-- Claim C7: `generate_response` is a total function into strings by
construction (the embedding returns a `String` for every input and state);
on an unbuilt index (`tfidf_matrix is None`) retrieval returns the empty
list rather than failing, and a message matching no routing rule falls
back to the clarification template (fewer than 3 words) or the generic
guidance template. -/
theorem unbuilt_retrieval_empty_and_fallback {α : Type} [LinearOrder α] [Zero α]
    (bot : Bot α) (q : String) (k : Nat) (m : α)
    (hunbuilt : bot.tfidf = none) :
    retrieve_relevant_chunks bot q k m = [] ∧
      (matchesAnyRule (trimStr (lowerStr q)) = false →
        generate_response bot q k m =
          ((if wordCount (trimStr (lowerStr q)) < 3 then clarifyResponse
            else notFoundResponse), bot)) := by
  have hret : retrieve_relevant_chunks bot q k m = [] := by
    simp [retrieve_relevant_chunks, hunbuilt]
  refine ⟨hret, fun hno => ?_⟩
  simp only [matchesAnyRule, Bool.or_eq_false_iff] at hno
  obtain ⟨⟨⟨⟨⟨⟨⟨h1, h2⟩, h3⟩, h4⟩, h5⟩, h6⟩, h7⟩, h8⟩ := hno
  simp only [generate_response, h1, h2, h3, h4, h5, h6, h7, h8,
    Bool.false_eq_true, if_false, hret, List.isEmpty_nil, if_true]
  split <;> rfl

/-- Claim C7, witness: a 4-word message matching no rule on an unbuilt bot
yields the generic guidance template, and retrieval returns `[]`. -/
theorem unbuilt_retrieval_witness :
    retrieve_relevant_chunks botQ0 ("quantum flux capacitor maintenance") 5 ((3 : ℚ)/20)
        = [] ∧
      generate_response botQ0 ("quantum flux capacitor maintenance") 5 ((3 : ℚ)/20)
        = (notFoundResponse, botQ0) := by
  refine ⟨(unbuilt_retrieval_empty_and_fallback botQ0 _ 5 ((3 : ℚ)/20) rfl).1, ?_⟩
  have h := (unbuilt_retrieval_empty_and_fallback botQ0
    ("quantum flux capacitor maintenance") 5 ((3 : ℚ)/20) rfl).2 (by decide)
  rw [h, if_neg (by decide)]

/-! ### C3: the empty-corpus build -/

/-- Claim C3: whenever the unique-chunk count after fetching and chunking
every configured URL is zero (in particular when `urls = []` or every
fetch yields no text), `load_data` raises the corpus-empty error, builds
no index (`tfidf` stays `None`), and the resulting state still answers
`get_stats` with `total_chunks = 0` and `vectorizer_vocab_size = 0`. -/
theorem empty_corpus_build (urls : List String) (fetch : String → String)
    (huniq : uniqueChunks (urls.foldl (loadStep fetch) (([], []))).1 = []) :
    (load_data (mkBot ℝ urls) fetch).2
        = Except.error ("No content available for chatbot training") ∧
      (load_data (mkBot ℝ urls) fetch).1.tfidf = none ∧
      (get_stats (load_data (mkBot ℝ urls) fetch).1).total_chunks = 0 ∧
      (get_stats (load_data (mkBot ℝ urls) fetch).1).vocabSize = 0 := by
  simp only [load_data, mkBot, huniq, List.isEmpty_nil, if_true, get_stats]
  exact ⟨trivial, trivial, rfl, rfl⟩

/-- Claim C3, witness: a concrete one-URL corpus whose fetch returns no
text (so the unique-chunk count is zero). -/
theorem empty_corpus_build_witness :
    (load_data (mkBot ℝ [("https://a.example")]) (fun _ => ("")) ).2
        = Except.error ("No content available for chatbot training") ∧
      (load_data (mkBot ℝ [("https://a.example")]) (fun _ => ("")) ).1.tfidf = none ∧
      (get_stats (load_data (mkBot ℝ [("https://a.example")]) (fun _ => ("")) ).1).total_chunks
        = 0 ∧
      (get_stats (load_data (mkBot ℝ [("https://a.example")]) (fun _ => ("")) ).1).vocabSize
        = 0 :=
  empty_corpus_build [("https://a.example")] (fun _ => ("")) (by rfl)

/-! ### C9: full-text contact extraction (the phone capture-group slip) -/

/-- Claim C9, behaviour at the failing input: on a non-contact page whose
text contains the phone number `123-456-7890`, the code appends
`"Phone: "` — `re.findall` on a pattern with exactly one group returns the
group (the optional country prefix, empty here), not the matched number —
instead of the `"Phone: 123-456-7890"` entry the claim (and the code's own
comment "Extract phone numbers") describes. -/
theorem extract_phone_group_bug :
    (extract_from_full_text emptySD ("Call 123-456-7890 today for fun")
        ("https://example.com/about")).contact = [("Phone: ")] ∧
      ("Phone: 123-456-7890") ∉
        (extract_from_full_text emptySD ("Call 123-456-7890 today for fun")
          ("https://example.com/about")).contact := by
  refine ⟨by decide, by decide⟩

/-! ### C1: shape of the retrieval result -/

section RetrievalProofs

variable {α : Type} [LinearOrder α] [Zero α]

instance idxLe_trans (sims : List α) : IsTrans Nat (idxLe sims) := by
  constructor
  intro a b c hab hbc
  rcases hab with h1 | ⟨h1, h1i⟩ <;> rcases hbc with h2 | ⟨h2, h2i⟩
  · exact Or.inl (lt_trans h1 h2)
  · exact Or.inl (h2 ▸ h1)
  · exact Or.inl (h1 ▸ h2)
  · exact Or.inr ⟨h1.trans h2, le_trans h1i h2i⟩

instance idxLe_total (sims : List α) : IsTotal Nat (idxLe sims) := by
  constructor
  intro a b
  rcases lt_trichotomy (simAt sims a) (simAt sims b) with h | h | h
  · exact Or.inl (Or.inl h)
  · rcases Nat.le_total a b with hi | hi
    · exact Or.inl (Or.inr ⟨h, hi⟩)
    · exact Or.inr (Or.inr ⟨h.symm, hi⟩)
  · exact Or.inr (Or.inl h)

theorem argsortAsc_sorted (sims : List α) :
    List.Sorted (idxLe sims) (argsortAsc sims) :=
  List.sorted_insertionSort (idxLe sims) (List.range sims.length)

theorem argsortAsc_perm (sims : List α) :
    (argsortAsc sims).Perm (List.range sims.length) :=
  List.perm_insertionSort (idxLe sims) (List.range sims.length)

theorem argsortAsc_nodup (sims : List α) : (argsortAsc sims).Nodup :=
  ((argsortAsc_perm sims).nodup_iff).mpr (List.nodup_range sims.length)

/-- The candidate pool is ordered: strictly descending in `(score, index)`
lexicographic terms. -/
theorem topIdx_pairwise (sims : List α) (k : Nat) :
    (topIdx sims k).Pairwise
      (fun i j => simAt sims j < simAt sims i ∨
        (simAt sims j = simAt sims i ∧ j < i)) := by
  have hsub : (if k * 3 = 0 then argsortAsc sims
      else (argsortAsc sims).drop ((argsortAsc sims).length - k * 3)).Sublist
      (argsortAsc sims) := by
    split
    · exact List.Sublist.refl _
    · exact List.drop_sublist _ _
  have hsorted : List.Pairwise (idxLe sims)
      (if k * 3 = 0 then argsortAsc sims
        else (argsortAsc sims).drop ((argsortAsc sims).length - k * 3)) :=
    List.Pairwise.sublist hsub (argsortAsc_sorted sims)
  have hnodup : List.Pairwise (fun i j : Nat => i ≠ j)
      (if k * 3 = 0 then argsortAsc sims
        else (argsortAsc sims).drop ((argsortAsc sims).length - k * 3)) :=
    List.Pairwise.sublist hsub (argsortAsc_nodup sims)
  have hboth := hsorted.and hnodup
  rw [topIdx, List.pairwise_reverse]
  exact hboth.imp (fun h => by
    rcases h with ⟨hle | ⟨heq, hle⟩, hne⟩
    · exact Or.inl hle
    · exact Or.inr ⟨heq, lt_of_le_of_ne hle hne⟩)

theorem pickLoop_length (chunks : List String) (sims : List α) (min_score : α) (k : Nat) :
    ∀ (pool : List Nat) (seen : List String) (cnt : Nat), cnt < k →
      (pickLoop chunks sims min_score k pool seen cnt).length ≤ k - cnt := by
  intro pool
  induction pool with
  | nil => intro seen cnt h; simp [pickLoop]
  | cons idx rest ih =>
    intro seen cnt hcnt
    simp only [pickLoop]
    split
    · split
      · next hk1 => simp only [List.length_cons, List.length_nil]; omega
      · next hk1 =>
        have h2 : cnt + 1 < k := by omega
        have := ih (chunks.getD idx ("") :: seen) (cnt + 1) h2
        simp only [List.length_cons]
        omega
    · split
      · omega
      · exact ih seen cnt hcnt

theorem pickLoop_min_score (chunks : List String) (sims : List α) (min_score : α) (k : Nat) :
    ∀ (pool : List Nat) (seen : List String) (cnt : Nat),
      ∀ p ∈ pickLoop chunks sims min_score k pool seen cnt, min_score ≤ p.2 := by
  intro pool
  induction pool with
  | nil => intro seen cnt p hp; simp [pickLoop] at hp
  | cons idx rest ih =>
    intro seen cnt p hp
    simp only [pickLoop] at hp
    split at hp
    · next hcond =>
      have hsc : min_score ≤ simAt sims idx :=
        of_decide_eq_true ((Bool.and_eq_true _ _).mp hcond).1
      split at hp
      · rcases List.mem_singleton.mp hp with rfl
        exact hsc
      · rcases List.mem_cons.mp hp with rfl | h
        · exact hsc
        · exact ih _ _ p h
    · split at hp
      · simp at hp
      · exact ih _ _ p hp

theorem pickLoop_nodup (chunks : List String) (sims : List α) (min_score : α) (k : Nat) :
    ∀ (pool : List Nat) (seen : List String) (cnt : Nat),
      ((pickLoop chunks sims min_score k pool seen cnt).map
        (fun p => chunks.getD p.1 (""))).Nodup ∧
      ∀ p ∈ pickLoop chunks sims min_score k pool seen cnt,
        chunks.getD p.1 ("") ∉ seen := by
  intro pool
  induction pool with
  | nil => intro seen cnt; constructor <;> simp [pickLoop]
  | cons idx rest ih =>
    intro seen cnt
    simp only [pickLoop]
    split
    · next hcond =>
      have hnew : chunks.getD idx ("") ∉ seen := by
        have := ((Bool.and_eq_true _ _).mp hcond).2
        simpa using this
      split
      · constructor
        · simp
        · intro p hp
          rcases List.mem_singleton.mp hp with rfl
          exact hnew
      · rcases ih (chunks.getD idx ("") :: seen) (cnt + 1) with ⟨hnd, hseen⟩
        constructor
        · simp only [List.map_cons, List.nodup_cons]
          refine ⟨?_, hnd⟩
          intro hmem
          rcases List.mem_map.mp hmem with ⟨p, hp, hpe⟩
          exact (hseen p hp) (hpe ▸ List.mem_cons_self _ _)
        · intro p hp
          rcases List.mem_cons.mp hp with rfl | h
          · exact hnew
          · intro hmem
            exact (hseen p h) (List.mem_cons_of_mem _ hmem)
    · split
      · constructor <;> simp
      · exact ih seen cnt

theorem pickLoop_fst_sublist (chunks : List String) (sims : List α) (min_score : α) (k : Nat) :
    ∀ (pool : List Nat) (seen : List String) (cnt : Nat),
      ((pickLoop chunks sims min_score k pool seen cnt).map Prod.fst).Sublist pool := by
  intro pool
  induction pool with
  | nil => intro seen cnt; simp [pickLoop]
  | cons idx rest ih =>
    intro seen cnt
    simp only [pickLoop]
    split
    · split
      · simp only [List.map_cons, List.map_nil]
        exact (List.nil_sublist rest).cons₂ idx
      · simpa using (ih _ (cnt + 1)).cons₂ idx
    · split
      · simp
      · exact (ih seen cnt).cons idx

theorem pickLoop_score_eq (chunks : List String) (sims : List α) (min_score : α) (k : Nat) :
    ∀ (pool : List Nat) (seen : List String) (cnt : Nat),
      ∀ p ∈ pickLoop chunks sims min_score k pool seen cnt, p.2 = simAt sims p.1 := by
  intro pool
  induction pool with
  | nil => intro seen cnt p hp; simp [pickLoop] at hp
  | cons idx rest ih =>
    intro seen cnt p hp
    simp only [pickLoop] at hp
    split at hp
    · split at hp
      · rcases List.mem_singleton.mp hp with rfl; rfl
      · rcases List.mem_cons.mp hp with rfl | h
        · rfl
        · exact ih _ _ p h
    · split at hp
      · simp at hp
      · exact ih _ _ p hp

/-- The returned indices, in order, are strictly descending in
`(score, index)` lexicographic terms. -/
theorem retrievePicked_pairwise (chunks : List String) (sims : List α) (k : Nat)
    (min_score : α) :
    (retrievePicked chunks sims k min_score).Pairwise
      (fun p q => q.2 < p.2 ∨ (q.2 = p.2 ∧ q.1 < p.1)) := by
  have hsub := pickLoop_fst_sublist chunks sims min_score k (topIdx sims k) [] 0
  have hpool := topIdx_pairwise sims k
  have hmap : ((retrievePicked chunks sims k min_score).map Prod.fst).Pairwise
      (fun i j => simAt sims j < simAt sims i ∨
        (simAt sims j = simAt sims i ∧ j < i)) :=
    List.Pairwise.sublist hsub hpool
  have hidx := (List.pairwise_map.mp hmap)
  refine hidx.imp_of_mem ?_
  intro p q hp hq h
  have hp2 := pickLoop_score_eq chunks sims min_score k (topIdx sims k) [] 0 p hp
  have hq2 := pickLoop_score_eq chunks sims min_score k (topIdx sims k) [] 0 q hq
  rw [hp2, hq2]
  exact h

/-- Claim C1 (amended): for every chunk list, similarity row,
`k ≥ 1` and `min_score`, the retrieval returns at most `k` pairs, every
returned score clears `min_score`, no two returned chunks share their text,
and the results are sorted by strictly descending `(score, original index)`
— i.e. descending scores with ties broken by **descending** original index
(the pool reverses a stable ascending argsort, so tied chunks come out in
reverse corpus order, not in corpus order as the claim stated). -/
theorem retrieve_shape_properties (chunks : List String) (sims : List α)
    (k : Nat) (min_score : α) (hk : 1 ≤ k) :
    (retrieveFromSims chunks sims k min_score).length ≤ k ∧
      (∀ p ∈ retrieveFromSims chunks sims k min_score, min_score ≤ p.2) ∧
      ((retrieveFromSims chunks sims k min_score).map Prod.fst).Nodup ∧
      (retrievePicked chunks sims k min_score).Pairwise
        (fun p q => q.2 < p.2 ∨ (q.2 = p.2 ∧ q.1 < p.1)) ∧
      (retrieveFromSims chunks sims k min_score).Pairwise (fun p q => q.2 ≤ p.2) := by
  refine ⟨?_, ?_, ?_, retrievePicked_pairwise chunks sims k min_score, ?_⟩
  · have := pickLoop_length chunks sims min_score k (topIdx sims k) [] 0 (by omega)
    simpa [retrieveFromSims, retrievePicked] using this
  · intro p hp
    rcases List.mem_map.mp hp with ⟨q, hq, rfl⟩
    exact pickLoop_min_score chunks sims min_score k (topIdx sims k) [] 0 q hq
  · have := (pickLoop_nodup chunks sims min_score k (topIdx sims k) [] 0).1
    simpa [retrieveFromSims, retrievePicked, List.map_map, Function.comp] using this
  · have hpw := retrievePicked_pairwise chunks sims k min_score
    rw [retrieveFromSims, List.pairwise_map]
    exact hpw.imp (fun h => by
      rcases h with h | ⟨h, _⟩
      · exact le_of_lt h
      · exact le_of_eq h)

/-- Claim C1, witness: the shape conjuncts applied at a concrete chunk
list and similarity row. -/
theorem retrieve_shape_witness :
    (retrieveFromSims [("aa"), ("bb")] [(1 : ℚ), 2] 1 0).length ≤ 1 :=
  (retrieve_shape_properties [("aa"), ("bb")] [(1 : ℚ), 2] 1 0 (by decide)).1

theorem pickLoop_all_below (chunks : List String) (sims : List α)
    (min_score : α) (k : Nat) (h : ∀ i, simAt sims i < min_score) :
    ∀ (pool : List Nat) (seen : List String) (cnt : Nat),
      pickLoop chunks sims min_score k pool seen cnt = [] := by
  intro pool
  induction pool with
  | nil => intro seen cnt; rfl
  | cons idx rest ih =>
    intro seen cnt
    simp only [pickLoop]
    rw [decide_eq_false (not_le.mpr (h idx))]
    simp only [Bool.false_and, Bool.false_eq_true, if_false]
    split
    · rfl
    · exact ih seen cnt

theorem pickLoop_cons_take {chunks : List String} {sims : List α}
    {min_score : α} {k idx : Nat} {rest : List Nat} {seen : List String} {cnt : Nat}
    (hsc : min_score ≤ simAt sims idx)
    (hns : seen.contains (chunks.getD idx ("")) = false)
    (hbr : ¬ (k ≤ cnt + 1)) :
    pickLoop chunks sims min_score k (idx :: rest) seen cnt
      = (idx, simAt sims idx) ::
          pickLoop chunks sims min_score k rest (chunks.getD idx ("") :: seen) (cnt + 1) := by
  simp only [pickLoop, decide_eq_true hsc, hns, Bool.not_false, Bool.and_self, if_true]
  rw [if_neg hbr]

theorem pickLoop_cons_take_last {chunks : List String} {sims : List α}
    {min_score : α} {k idx : Nat} {rest : List Nat} {seen : List String} {cnt : Nat}
    (hsc : min_score ≤ simAt sims idx)
    (hns : seen.contains (chunks.getD idx ("")) = false)
    (hbr : k ≤ cnt + 1) :
    pickLoop chunks sims min_score k (idx :: rest) seen cnt = [(idx, simAt sims idx)] := by
  simp only [pickLoop, decide_eq_true hsc, hns, Bool.not_false, Bool.and_self, if_true]
  rw [if_pos hbr]

end RetrievalProofs

/-! ### Real-valued similarity lemmas -/

theorem docFreq_le_length (docs : List String) (t : String) :
    docFreq docs t ≤ docs.length :=
  List.length_filter_le _ _

theorem idfR_pos (docs : List String) (t : String) : 0 < idfR docs t := by
  unfold idfR
  have hdf : (docFreq docs t : ℝ) ≤ (docs.length : ℝ) := by
    exact_mod_cast docFreq_le_length docs t
  have hpos : (0 : ℝ) < 1 + (docFreq docs t : ℝ) := by positivity
  have h1 : (1 : ℝ) ≤ (1 + (docs.length : ℝ)) / (1 + (docFreq docs t : ℝ)) := by
    rw [le_div_iff₀ hpos]; linarith
  have := Real.log_nonneg h1
  linarith

theorem dotL_cons (x y : ℝ) (xs ys : List ℝ) :
    dotL (x :: xs) (y :: ys) = x * y + dotL xs ys := by
  simp [dotL]

theorem dotL_zero_left : ∀ (a v : List ℝ), (∀ x ∈ a, x = 0) → dotL a v = 0 := by
  intro a
  induction a with
  | nil => intro v _; simp [dotL]
  | cons x xs ih =>
    intro v h
    cases v with
    | nil => simp [dotL]
    | cons y ys =>
      rw [dotL_cons, h x (List.mem_cons_self _ _),
        ih ys (fun z hz => h z (List.mem_cons_of_mem _ hz))]
      ring

theorem cosSim_zero_left {a : List ℝ} (v : List ℝ) (ha : ∀ x ∈ a, x = 0) :
    cosSim a v = 0 := by
  rw [cosSim, dotL_zero_left a v ha, zero_div]

theorem cosSim_self {v : List ℝ} (h : 0 < dotL v v) : cosSim v v = 1 := by
  rw [cosSim, normL, Real.mul_self_sqrt (le_of_lt h), div_self (ne_of_gt h)]

/-! ### C6: the verbatim-chunk round trip -/

theorem zquery_vec_zero : ∀ x ∈ tfidfVecR zDocs ("zulu yankee xray whiskey"), x = 0 := by
  have hv : fitVocab zDocs
      = [("alpha"), ("alpha beta"), ("beta"), ("beta gamma"), ("gamma")] := by decide
  intro x hx
  rw [tfidfVecR, hv] at hx
  simp only [List.map_cons, List.map_nil, List.mem_cons, List.not_mem_nil, or_false] at hx
  rcases hx with rfl | rfl | rfl | rfl | rfl
  · simp [(by decide : termCount ("alpha") ("zulu yankee xray whiskey") = 0)]
  · simp [(by decide : termCount ("alpha beta") ("zulu yankee xray whiskey") = 0)]
  · simp [(by decide : termCount ("beta") ("zulu yankee xray whiskey") = 0)]
  · simp [(by decide : termCount ("beta gamma") ("zulu yankee xray whiskey") = 0)]
  · simp [(by decide : termCount ("gamma") ("zulu yankee xray whiskey") = 0)]

theorem zsims_all_below :
    ∀ i, simAt (simsOfR zDocs ("zulu yankee xray whiskey")) i < ((1 : ℝ)/10) := by
  intro i
  have hzero : simAt (simsOfR zDocs ("zulu yankee xray whiskey")) i = 0 := by
    rcases lt_or_ge i (simsOfR zDocs ("zulu yankee xray whiskey")).length with h | h
    · have hmem : simAt (simsOfR zDocs ("zulu yankee xray whiskey")) i
          ∈ simsOfR zDocs ("zulu yankee xray whiskey") := by
        rw [simAt, List.getD_eq_getElem?_getD, List.getElem?_eq_getElem h]
        simp [List.getElem_mem]
      rcases List.mem_map.mp hmem with ⟨d, _, he⟩
      rw [← he, cosSim_zero_left _ zquery_vec_zero]
    · rw [simAt, List.getD_eq_default _ _ h]
  rw [hzero]
  norm_num

/-- Claim C6, counterexample: a corpus whose third chunk shares no
`min_df`-surviving vocabulary term with any other chunk.  Querying the
retriever with that chunk's verbatim text yields the zero query vector,
every similarity is 0 < `min_score` = 0.1, and the retriever returns no
results at all — in particular not that chunk as top result. -/
theorem retrieve_roundtrip_pruned_cex :
    retrieveBuiltR zDocs ("zulu yankee xray whiskey") 7 ((1 : ℝ)/10) = [] ∧
      ("zulu yankee xray whiskey") ∈ zDocs := by
  refine ⟨?_, by decide⟩
  rw [retrieveBuiltR, retrieveFromSims, retrievePicked,
    pickLoop_all_below _ _ _ _ zsims_all_below]
  rfl

theorem sorted_getLast?_eq {α : Type} [LinearOrder α] [Zero α] {sims : List α} :
    ∀ (S : List Nat) (z : Nat), List.Sorted (idxLe sims) S → S.Nodup → z ∈ S →
      (∀ w ∈ S, w ≠ z → ¬ idxLe sims z w) → S.getLast? = some z := by
  intro S
  induction S with
  | nil => intro z _ _ hz _; cases hz
  | cons a S' ih =>
    intro z hsorted hnodup hz hmax
    cases S' with
    | nil =>
      rcases List.mem_singleton.mp hz with rfl
      rfl
    | cons b S'' =>
      rcases List.mem_cons.mp hz with rfl | hz'
      · exfalso
        have hzb : idxLe sims z b :=
          (List.pairwise_cons.mp hsorted).1 b (List.mem_cons_self _ _)
        have hbz : b ≠ z := by
          intro he
          exact (List.nodup_cons.mp hnodup).1 (he ▸ List.mem_cons_self _ _)
        exact hmax b (List.mem_cons_of_mem _ (List.mem_cons_self _ _)) hbz hzb
      · rw [List.getLast?_cons_cons]
        exact ih z hsorted.of_cons (List.nodup_cons.mp hnodup).2 hz'
          (fun w hw hne => hmax w (List.mem_cons_of_mem _ hw) hne)

theorem topIdx_head_of_max {α : Type} [LinearOrder α] [Zero α] {sims : List α} {z : Nat}
    (k : Nat) (hz : z ∈ argsortAsc sims)
    (hmax : ∀ w ∈ argsortAsc sims, w ≠ z → ¬ idxLe sims z w) :
    ∃ rest, topIdx sims k = z :: rest := by
  have hlast : (argsortAsc sims).getLast? = some z :=
    sorted_getLast?_eq (argsortAsc sims) z (argsortAsc_sorted sims)
      (argsortAsc_nodup sims) hz hmax
  have hlen1 : 0 < (argsortAsc sims).length :=
    List.length_pos.mpr (List.ne_nil_of_mem hz)
  have hpool : (if k * 3 = 0 then argsortAsc sims
      else (argsortAsc sims).drop ((argsortAsc sims).length - k * 3)).getLast?
      = some z := by
    split
    · exact hlast
    · next hk =>
      rw [List.getLast?_drop]
      rw [if_neg (by omega)]
      exact hlast
  rw [topIdx]
  rcases Option.isSome_iff_exists.mp (by rw [List.head?_reverse, hpool]; rfl :
      ((if k * 3 = 0 then argsortAsc sims
        else (argsortAsc sims).drop ((argsortAsc sims).length - k * 3)).reverse.head?).isSome)
    with ⟨w, hw⟩
  have hwz : w = z := by
    rw [List.head?_reverse, hpool] at hw
    exact (Option.some.inj hw).symm
  subst hwz
  exact ⟨_, (List.head?_eq_some_iff.mp hw).choose_spec⟩

/-- Claim C6 (amended): querying the retriever (defaults `k = 7`,
`min_score = 0.1`) with an indexed chunk's verbatim text returns that chunk
as the top result with the maximal score 1 > `min_score`, **provided** the
chunk's tf-idf vector over the df-surviving vocabulary is nonzero and no
other indexed chunk reaches cosine similarity 1 against it.  Both provisos
are forced: a fully pruned chunk yields the empty result (the
counterexample), and a chunk whose vector is a positive multiple of
another's ties at similarity 1 and loses the top spot to the later index. -/
theorem retrieve_roundtrip_amended (docs : List String) (z : Nat) (hz : z < docs.length)
    (hnz : 0 < dotL (tfidfVecR docs (docs.getD z ("")))
      (tfidfVecR docs (docs.getD z (""))))
    (hlt : ∀ j, j < docs.length → j ≠ z →
      cosSim (tfidfVecR docs (docs.getD z ("")))
        (tfidfVecR docs (docs.getD j (""))) < 1) :
    (retrieveBuiltR docs (docs.getD z ("")) 7 ((1 : ℝ)/10)).head?
      = some (docs.getD z (""), 1) := by
  have hlen : (simsOfR docs (docs.getD z (""))).length = docs.length := by
    simp [simsOfR]
  have hsim : ∀ j, j < docs.length → simAt (simsOfR docs (docs.getD z (""))) j
      = cosSim (tfidfVecR docs (docs.getD z ("")))
          (tfidfVecR docs (docs.getD j (""))) := by
    intro j hj
    rw [simAt, List.getD_eq_getElem?_getD, simsOfR, List.getElem?_map,
      List.getElem?_eq_getElem hj]
    simp [List.getD_eq_getElem?_getD, List.getElem?_eq_getElem hj]
  have hz1 : simAt (simsOfR docs (docs.getD z (""))) z = 1 := by
    rw [hsim z hz, cosSim_self hnz]
  have hmax : ∀ w ∈ argsortAsc (simsOfR docs (docs.getD z (""))), w ≠ z →
      ¬ idxLe (simsOfR docs (docs.getD z (""))) z w := by
    intro w hw hne hle
    have hwlt : w < docs.length := by
      have := ((argsortAsc_perm _).mem_iff).mp hw
      rw [List.mem_range, hlen] at this
      exact this
    have hws : simAt (simsOfR docs (docs.getD z (""))) w < 1 := by
      rw [hsim w hwlt]
      exact hlt w hwlt hne
    rcases hle with h | ⟨h, _⟩
    · rw [hz1] at h; linarith
    · rw [hz1] at h; linarith
  have hzmem : z ∈ argsortAsc (simsOfR docs (docs.getD z (""))) := by
    rw [(argsortAsc_perm _).mem_iff, List.mem_range, hlen]
    exact hz
  obtain ⟨rest, hpool⟩ := topIdx_head_of_max 7 hzmem hmax
  rw [retrieveBuiltR, retrieveFromSims, retrievePicked, hpool,
    pickLoop_cons_take (by rw [hz1]; norm_num)
      (show ([] : List String).contains (docs.getD z ("")) = false from rfl) (by omega)]
  simp only [List.map_cons, List.head?_cons, hz1]

/-! #### Witness corpus for the amended round trip -/

theorem wDocs_vocab : fitVocab wDocs = [("alpha"), ("alpha beta"), ("beta"), ("gamma")] := by
  decide

theorem wvec0 : tfidfVecR wDocs ("alpha beta")
    = [idfR wDocs ("alpha"), idfR wDocs ("alpha beta"), idfR wDocs ("beta"), 0] := by
  rw [tfidfVecR, wDocs_vocab]
  simp only [List.map_cons, List.map_nil]
  rw [(by decide : termCount ("alpha") ("alpha beta") = 1),
    (by decide : termCount ("alpha beta") ("alpha beta") = 1),
    (by decide : termCount ("beta") ("alpha beta") = 1),
    (by decide : termCount ("gamma") ("alpha beta") = 0)]
  norm_num

theorem wvec1 : tfidfVecR wDocs ("alpha beta gamma")
    = [idfR wDocs ("alpha"), idfR wDocs ("alpha beta"), idfR wDocs ("beta"),
        idfR wDocs ("gamma")] := by
  rw [tfidfVecR, wDocs_vocab]
  simp only [List.map_cons, List.map_nil]
  rw [(by decide : termCount ("alpha") ("alpha beta gamma") = 1),
    (by decide : termCount ("alpha beta") ("alpha beta gamma") = 1),
    (by decide : termCount ("beta") ("alpha beta gamma") = 1),
    (by decide : termCount ("gamma") ("alpha beta gamma") = 1)]
  norm_num

theorem wvec2 : tfidfVecR wDocs ("gamma delta epsilon")
    = [0, 0, 0, idfR wDocs ("gamma")] := by
  rw [tfidfVecR, wDocs_vocab]
  simp only [List.map_cons, List.map_nil]
  rw [(by decide : termCount ("alpha") ("gamma delta epsilon") = 0),
    (by decide : termCount ("alpha beta") ("gamma delta epsilon") = 0),
    (by decide : termCount ("beta") ("gamma delta epsilon") = 0),
    (by decide : termCount ("gamma") ("gamma delta epsilon") = 1)]
  norm_num

theorem wA_pos : 0 < dotL (tfidfVecR wDocs ("alpha beta")) (tfidfVecR wDocs ("alpha beta")) := by
  rw [wvec0]
  have h1 := idfR_pos wDocs ("alpha")
  have h2 := idfR_pos wDocs ("alpha beta")
  have h3 := idfR_pos wDocs ("beta")
  simp only [dotL, List.zipWith, List.sum_cons, List.sum_nil]
  nlinarith

theorem cos_aux_lt_one {A g : ℝ} (hA : 0 < A) (hg : 0 < g) :
    A / (Real.sqrt A * Real.sqrt (A + g)) < 1 := by
  have hsq : Real.sqrt A * Real.sqrt (A + g) = Real.sqrt (A * (A + g)) :=
    (Real.sqrt_mul hA.le _).symm
  rw [hsq, div_lt_one (Real.sqrt_pos.mpr (by positivity))]
  exact (Real.lt_sqrt hA.le).mpr (by nlinarith)

theorem wcos1_lt :
    cosSim (tfidfVecR wDocs ("alpha beta")) (tfidfVecR wDocs ("alpha beta gamma")) < 1 := by
  have h1 := idfR_pos wDocs ("alpha")
  have h2 := idfR_pos wDocs ("alpha beta")
  have h3 := idfR_pos wDocs ("beta")
  have h4 := idfR_pos wDocs ("gamma")
  have hdot01 : dotL (tfidfVecR wDocs ("alpha beta")) (tfidfVecR wDocs ("alpha beta gamma"))
      = idfR wDocs ("alpha") * idfR wDocs ("alpha") +
          idfR wDocs ("alpha beta") * idfR wDocs ("alpha beta") +
          idfR wDocs ("beta") * idfR wDocs ("beta") := by
    rw [wvec0, wvec1]
    simp only [dotL, List.zipWith, List.sum_cons, List.sum_nil]
    ring
  have hdot00 : dotL (tfidfVecR wDocs ("alpha beta")) (tfidfVecR wDocs ("alpha beta"))
      = idfR wDocs ("alpha") * idfR wDocs ("alpha") +
          idfR wDocs ("alpha beta") * idfR wDocs ("alpha beta") +
          idfR wDocs ("beta") * idfR wDocs ("beta") := by
    rw [wvec0]
    simp only [dotL, List.zipWith, List.sum_cons, List.sum_nil]
    ring
  have hdot11 : dotL (tfidfVecR wDocs ("alpha beta gamma"))
      (tfidfVecR wDocs ("alpha beta gamma"))
      = (idfR wDocs ("alpha") * idfR wDocs ("alpha") +
          idfR wDocs ("alpha beta") * idfR wDocs ("alpha beta") +
          idfR wDocs ("beta") * idfR wDocs ("beta")) +
          idfR wDocs ("gamma") * idfR wDocs ("gamma") := by
    rw [wvec1]
    simp only [dotL, List.zipWith, List.sum_cons, List.sum_nil]
    ring
  rw [cosSim, normL, normL, hdot01, hdot00, hdot11]
  exact cos_aux_lt_one (by nlinarith) (by nlinarith)

theorem wcos2_lt :
    cosSim (tfidfVecR wDocs ("alpha beta")) (tfidfVecR wDocs ("gamma delta epsilon")) < 1 := by
  have hdot : dotL (tfidfVecR wDocs ("alpha beta")) (tfidfVecR wDocs ("gamma delta epsilon"))
      = 0 := by
    rw [wvec0, wvec2]
    simp only [dotL, List.zipWith, List.sum_cons, List.sum_nil]
    ring
  rw [cosSim, hdot, zero_div]
  norm_num

/-- Claim C6, witness: the amended round trip at a concrete three-chunk
corpus whose first chunk's vector is nonzero and strictly dominates every
other chunk's similarity. -/
theorem retrieve_roundtrip_witness :
    (retrieveBuiltR wDocs (wDocs.getD 0 ("")) 7 ((1 : ℝ)/10)).head?
      = some (wDocs.getD 0 (""), 1) := by
  refine retrieve_roundtrip_amended wDocs 0 (by norm_num [wDocs]) wA_pos ?_
  intro j hj hne
  match j with
  | 0 => exact absurd rfl hne
  | 1 => exact wcos1_lt
  | 2 => exact wcos2_lt
  | j + 3 => simp only [wDocs, List.length_cons, List.length_nil] at hj; omega

/-! ### C1 counterexample: tied scores come out in reverse index order -/

theorem propDocs_vocab : fitVocab propDocs = [("alpha"), ("alpha beta"), ("beta")] := by
  decide

theorem pvec0 : tfidfVecR propDocs ("alpha beta")
    = [idfR propDocs ("alpha"), idfR propDocs ("alpha beta"), idfR propDocs ("beta")] := by
  rw [tfidfVecR, propDocs_vocab]
  simp only [List.map_cons, List.map_nil]
  rw [(by decide : termCount ("alpha") ("alpha beta") = 1),
    (by decide : termCount ("alpha beta") ("alpha beta") = 1),
    (by decide : termCount ("beta") ("alpha beta") = 1)]
  norm_num

theorem pvec1 : tfidfVecR propDocs ("alpha beta alpha beta")
    = [2 * idfR propDocs ("alpha"), 2 * idfR propDocs ("alpha beta"),
        2 * idfR propDocs ("beta")] := by
  rw [tfidfVecR, propDocs_vocab]
  simp only [List.map_cons, List.map_nil]
  rw [(by decide : termCount ("alpha") ("alpha beta alpha beta") = 2),
    (by decide : termCount ("alpha beta") ("alpha beta alpha beta") = 2),
    (by decide : termCount ("beta") ("alpha beta alpha beta") = 2)]
  norm_num

theorem pvec2 : tfidfVecR propDocs ("gamma delta gamma") = [0, 0, 0] := by
  rw [tfidfVecR, propDocs_vocab]
  simp only [List.map_cons, List.map_nil]
  rw [(by decide : termCount ("alpha") ("gamma delta gamma") = 0),
    (by decide : termCount ("alpha beta") ("gamma delta gamma") = 0),
    (by decide : termCount ("beta") ("gamma delta gamma") = 0)]
  norm_num

theorem pA_pos : 0 < dotL (tfidfVecR propDocs ("alpha beta"))
    (tfidfVecR propDocs ("alpha beta")) := by
  rw [pvec0]
  have h1 := idfR_pos propDocs ("alpha")
  have h2 := idfR_pos propDocs ("alpha beta")
  have h3 := idfR_pos propDocs ("beta")
  simp only [dotL, List.zipWith, List.sum_cons, List.sum_nil]
  nlinarith

theorem pcos1 : cosSim (tfidfVecR propDocs ("alpha beta"))
    (tfidfVecR propDocs ("alpha beta alpha beta")) = 1 := by
  have h1 := idfR_pos propDocs ("alpha")
  have h2 := idfR_pos propDocs ("alpha beta")
  have h3 := idfR_pos propDocs ("beta")
  have hE : (0 : ℝ) < idfR propDocs ("alpha") * idfR propDocs ("alpha") +
      idfR propDocs ("alpha beta") * idfR propDocs ("alpha beta") +
      idfR propDocs ("beta") * idfR propDocs ("beta") := by nlinarith
  have hdot00 : dotL (tfidfVecR propDocs ("alpha beta")) (tfidfVecR propDocs ("alpha beta"))
      = idfR propDocs ("alpha") * idfR propDocs ("alpha") +
          idfR propDocs ("alpha beta") * idfR propDocs ("alpha beta") +
          idfR propDocs ("beta") * idfR propDocs ("beta") := by
    rw [pvec0]
    simp only [dotL, List.zipWith, List.sum_cons, List.sum_nil]
    ring
  have hdot01 : dotL (tfidfVecR propDocs ("alpha beta"))
      (tfidfVecR propDocs ("alpha beta alpha beta"))
      = 2 * (idfR propDocs ("alpha") * idfR propDocs ("alpha") +
          idfR propDocs ("alpha beta") * idfR propDocs ("alpha beta") +
          idfR propDocs ("beta") * idfR propDocs ("beta")) := by
    rw [pvec0, pvec1]
    simp only [dotL, List.zipWith, List.sum_cons, List.sum_nil]
    ring
  have hdot11 : dotL (tfidfVecR propDocs ("alpha beta alpha beta"))
      (tfidfVecR propDocs ("alpha beta alpha beta"))
      = 4 * (idfR propDocs ("alpha") * idfR propDocs ("alpha") +
          idfR propDocs ("alpha beta") * idfR propDocs ("alpha beta") +
          idfR propDocs ("beta") * idfR propDocs ("beta")) := by
    rw [pvec1]
    simp only [dotL, List.zipWith, List.sum_cons, List.sum_nil]
    ring
  rw [cosSim, normL, normL, hdot00, hdot01, hdot11]
  rw [show (4 : ℝ) * (idfR propDocs ("alpha") * idfR propDocs ("alpha") +
      idfR propDocs ("alpha beta") * idfR propDocs ("alpha beta") +
      idfR propDocs ("beta") * idfR propDocs ("beta"))
      = 2 ^ 2 * (idfR propDocs ("alpha") * idfR propDocs ("alpha") +
          idfR propDocs ("alpha beta") * idfR propDocs ("alpha beta") +
          idfR propDocs ("beta") * idfR propDocs ("beta")) from by ring,
    Real.sqrt_mul (by norm_num : (0 : ℝ) ≤ 2 ^ 2),
    Real.sqrt_sq (by norm_num : (0 : ℝ) ≤ 2)]
  rw [show Real.sqrt (idfR propDocs ("alpha") * idfR propDocs ("alpha") +
      idfR propDocs ("alpha beta") * idfR propDocs ("alpha beta") +
      idfR propDocs ("beta") * idfR propDocs ("beta")) *
      (2 * Real.sqrt (idfR propDocs ("alpha") * idfR propDocs ("alpha") +
        idfR propDocs ("alpha beta") * idfR propDocs ("alpha beta") +
        idfR propDocs ("beta") * idfR propDocs ("beta")))
      = 2 * (Real.sqrt (idfR propDocs ("alpha") * idfR propDocs ("alpha") +
          idfR propDocs ("alpha beta") * idfR propDocs ("alpha beta") +
          idfR propDocs ("beta") * idfR propDocs ("beta")) *
          Real.sqrt (idfR propDocs ("alpha") * idfR propDocs ("alpha") +
            idfR propDocs ("alpha beta") * idfR propDocs ("alpha beta") +
            idfR propDocs ("beta") * idfR propDocs ("beta"))) from by ring,
    Real.mul_self_sqrt hE.le]
  exact div_self (by linarith)

theorem pcos2 : cosSim (tfidfVecR propDocs ("alpha beta"))
    (tfidfVecR propDocs ("gamma delta gamma")) = 0 := by
  have hdot : dotL (tfidfVecR propDocs ("alpha beta"))
      (tfidfVecR propDocs ("gamma delta gamma")) = 0 := by
    rw [pvec0, pvec2]
    simp only [dotL, List.zipWith, List.sum_cons, List.sum_nil]
    ring
  rw [cosSim, hdot, zero_div]

theorem prop_sims : simsOfR propDocs ("alpha beta") = [1, 1, 0] := by
  have hmap : simsOfR propDocs ("alpha beta")
      = [cosSim (tfidfVecR propDocs ("alpha beta")) (tfidfVecR propDocs ("alpha beta")),
         cosSim (tfidfVecR propDocs ("alpha beta"))
           (tfidfVecR propDocs ("alpha beta alpha beta")),
         cosSim (tfidfVecR propDocs ("alpha beta"))
           (tfidfVecR propDocs ("gamma delta gamma"))] := rfl
  rw [hmap, cosSim_self pA_pos, pcos1, pcos2]

theorem prop_sort : argsortAsc ([1, 1, 0] : List ℝ) = [2, 0, 1] := by
  have h12 : ¬ idxLe ([1, 1, 0] : List ℝ) 1 2 := by
    norm_num [idxLe, simAt, List.getD_cons_succ, List.getD_cons_zero]
  have h02 : ¬ idxLe ([1, 1, 0] : List ℝ) 0 2 := by
    norm_num [idxLe, simAt, List.getD_cons_succ, List.getD_cons_zero]
  have h01 : idxLe ([1, 1, 0] : List ℝ) 0 1 := by
    norm_num [idxLe, simAt, List.getD_cons_succ, List.getD_cons_zero]
  rw [argsortAsc, show (([1, 1, 0] : List ℝ)).length = 3 from rfl,
    show List.range 3 = [0, 1, 2] from rfl]
  simp only [List.insertionSort, List.orderedInsert]
  rw [if_neg h12]
  simp only [List.orderedInsert]
  rw [if_neg h02, if_pos h01]

theorem prop_picked : retrievePickedR propDocs ("alpha beta") 2 0 = [(1, (1 : ℝ)), (0, 1)] := by
  rw [retrievePickedR, prop_sims, retrievePicked, topIdx, prop_sort]
  rw [if_neg (by norm_num : ¬ (2 * 3 = 0))]
  rw [show ([2, 0, 1] : List Nat).length - 2 * 3 = 0 from rfl, List.drop_zero,
    show ([2, 0, 1] : List Nat).reverse = [1, 0, 2] from rfl]
  rw [pickLoop_cons_take
    (by norm_num [simAt, List.getD_cons_succ, List.getD_cons_zero])
    (show ([] : List String).contains (propDocs.getD 1 ("")) = false from rfl)
    (by omega)]
  rw [pickLoop_cons_take_last
    (by norm_num [simAt, List.getD_cons_succ, List.getD_cons_zero])
    (show (propDocs.getD 1 ("") :: []).contains (propDocs.getD 0 ("")) = false from by decide)
    (by omega)]
  simp [simAt, List.getD_cons_succ, List.getD_cons_zero]

/-- Claim C1, counterexample to the tie-breaking clause: on a built corpus
whose second chunk's tf-idf vector is twice the first's, querying the first
chunk's verbatim text gives both chunks score 1, and the retriever returns
the **later** index first — `[(index 1, 1), (index 0, 1)]` — violating
"ties are broken by the chunks' original index order". -/
theorem retrieve_tie_ascending_cex :
    retrievePickedR propDocs ("alpha beta") 2 0 = [(1, (1 : ℝ)), (0, 1)] ∧
      ¬ (retrievePickedR propDocs ("alpha beta") 2 0).Pairwise
          (fun p q => q.2 < p.2 ∨ (q.2 = p.2 ∧ p.1 < q.1)) := by
  refine ⟨prop_picked, ?_⟩
  rw [prop_picked]
  intro hpw
  have h := (List.pairwise_cons.mp hpw).1 (0, (1 : ℝ)) (List.mem_singleton.mpr rfl)
  simp only at h
  rcases h with h | ⟨-, h⟩
  · exact absurd h (by norm_num)
  · exact absurd h (by omega)

end Chatbot
